import Mathlib

/-!
Verification of the autowriter suggestion pipeline.

Shallow embedding of the core modules of the repository:
  QualityFilter.js, GhostRenderer.js, ContextManager.js, PromptEngine.js,
  SuggestionController.js (plus the `accept` helper of content.js).

Strings are modelled as `List Char` (JavaScript's UTF-16 `length` equals the
character count for all BMP text).  Geometry coordinates read from bounding
boxes are modelled as `Int` (whole pixels); the one genuinely fractional
quantity of the source — `Math.round(t.length * ((cursorX - left) / width))`
— is computed exactly by `jsRoundRatio`, proven to agree with the rational
definition of `Math.round` in `jsRoundRatio_eq_jsRound`.  The floating-point
comparisons of the source (`ratio > 0.4` in QualityFilter and
`avgSentenceLen > 20` in ContextManager) are modelled by exact integer
cross-multiplication, which coincides with the IEEE-754 comparison for all
inputs of the relevant magnitudes (numerators/denominators far below 2^26,
so the rounding error of the double division is orders of magnitude smaller
than the distance between distinct candidate rationals); the C2 development
additionally proves the cross-multiplied test equal to the exact-fraction
reading of the specification.
-/

namespace Autowriter

/-- Shorthand turning a Lean string literal into the `List Char` representation
used throughout this development. -/
def strL (s : String) : List Char := s.data

/-- Characters matched by the JavaScript regex class `\s` (also the set removed
by `String.prototype.trim`). -/
def isJsWs (c : Char) : Bool :=
  c == ' ' || c == '\t' || c == '\n' || c == '\r' ||
  c.val == 11 || c.val == 12 || c.val == 0xa0 || c.val == 0x1680 ||
  (0x2000 ≤ c.val && c.val ≤ 0x200a) || c.val == 0x2028 || c.val == 0x2029 ||
  c.val == 0x202f || c.val == 0x205f || c.val == 0x3000 || c.val == 0xfeff

/-- JavaScript `String.prototype.trimStart`. -/
def jsTrimStart (l : List Char) : List Char := l.dropWhile isJsWs

/-- JavaScript `String.prototype.trimEnd`. -/
def jsTrimEnd (l : List Char) : List Char := (l.reverse.dropWhile isJsWs).reverse

/-- JavaScript `String.prototype.trim`. -/
def jsTrim (l : List Char) : List Char := jsTrimEnd (jsTrimStart l)

/-- ASCII lowering of a string; models JavaScript `toLowerCase` (all characters
appearing in the embedded pattern tests are ASCII). -/
def lowerL (l : List Char) : List Char := l.map Char.toLower

/-- Replacement of non-breaking spaces by plain spaces:
`.replace(/ /g, " ")` in the source. -/
def replNbsp (l : List Char) : List Char :=
  l.map (fun c => if c.val == 0xa0 then ' ' else c)



/-- Worker of `jsSplitWs`: `inWs` records whether the previous character was
part of a whitespace run (whose token has already been emitted), `acc` holds
the current token reversed. -/
def splitWsGo (inWs : Bool) (acc : List Char) : List Char → List (List Char)
  | [] => [acc.reverse]
  | c :: rest =>
      if isJsWs c then
        if inWs then splitWsGo true acc rest
        else acc.reverse :: splitWsGo true [] rest
      else splitWsGo false (c :: acc) rest

/-- JavaScript `str.split(/\s+/)`: tokens between maximal whitespace runs,
with an empty leading (trailing) token when the string starts (ends) with
whitespace, and `[""]` for the empty string. -/
def jsSplitWs (l : List Char) : List (List Char) := splitWsGo false [] l

/-- JavaScript `Array.prototype.join(sep)`. -/
def joinSep (sep : List Char) : List (List Char) → List Char
  | [] => []
  | [x] => x
  | x :: y :: rest => x ++ sep ++ joinSep sep (y :: rest)

/-- Containment of `needle` in a string, models `String.prototype.includes`. -/
def containsSub (needle : List Char) : List Char → Bool
  | [] => needle.isEmpty
  | c :: rest => needle.isPrefixOf (c :: rest) || containsSub needle rest

/-- JavaScript regex word characters `[A-Za-z0-9_]`. -/
def isWordCh (c : Char) : Bool :=
  ('a' ≤ c && c ≤ 'z') || ('A' ≤ c && c ≤ 'Z') || ('0' ≤ c && c ≤ '9') || c == '_'

/-- Whether a `\b` boundary holds between a preceding character (none at the
start of the string) and a following word character. -/
def boundaryOk : Option Char → Bool
  | none => true
  | some c => !isWordCh c

/-- Does `w` occur at the head of `t` with a `\b` boundary after it? -/
def wordAt (w t : List Char) : Bool :=
  w.isPrefixOf t && boundaryOk (t.drop w.length).head?

/-- Scan for `\b w \b` (the `prev` argument is the character just before the
current position). -/
def containsWordAux (w : List Char) (prev : Option Char) : List Char → Bool
  | [] => false
  | c :: rest =>
      (boundaryOk prev && wordAt w (c :: rest)) || containsWordAux w (some c) rest

/-- Test of the regex `/\b w \b/` on a string. -/
def containsWord (w t : List Char) : Bool := containsWordAux w none t

/-- Scan for `\b w` (boundary before only). -/
def containsBWAux (w : List Char) (prev : Option Char) : List Char → Bool
  | [] => false
  | c :: rest =>
      (boundaryOk prev && w.isPrefixOf (c :: rest)) || containsBWAux w (some c) rest

/-- Test of a regex `/\b w/` (no trailing boundary) on a string. -/
def containsBW (w t : List Char) : Bool := containsBWAux w none t

/-- Scan testing a predicate on every suffix of the string (used for the one
pattern containing a `.` wildcard). -/
def anySuffix (test : List Char → Bool) : List Char → Bool
  | [] => test []
  | c :: rest => test (c :: rest) || anySuffix test rest

/-- Apostrophe character, built explicitly for use inside embedded strings. -/
def apoCh : Char := Char.ofNat 39

/-- The `WritingContext` record produced by `ContextManager.extract`. -/
structure WritingContext where
  activeSentence : List Char
  recentParagraphs : List (List Char)
  documentSummary : List Char
  detectedTone : List Char
  fullContext : List Char
deriving DecidableEq, Repr

/-- The `QualityResult` record returned by `QualityFilter.validate`. -/
structure QualityResult where
  valid : Bool
  score : Int
  reason : List Char
deriving DecidableEq, Repr

namespace QualityFilter

/-- One banned-opener pattern: its test (applied, case-insensitively, to the
trimmed candidate — modelled by testing the ASCII-lowered candidate) and its
`pattern.source` string used in the rejection reason. -/
structure BannedPat where
  test : List Char → Bool
  src : List Char

/-- Starts-with test used for the `^...` anchored banned patterns. -/
def sw (p : String) (t : List Char) : Bool := (strL p).isPrefixOf t

/-- The banned leading-phrase patterns of `QualityFilter._checkBannedPhrases`,
in source order.  Each regex is anchored (`^`) and case-insensitive; the
alternation/class patterns are expanded into the equivalent starts-with
tests. -/
def bannedPatterns : List BannedPat := [
  ⟨sw "in conclusion", strL "^in conclusion"⟩,
  ⟨sw "in summary", strL "^in summary"⟩,
  ⟨sw "to summarize", strL "^to summarize"⟩,
  ⟨fun t => sw "overall" t &&
      (match t.drop 7 with
       | c :: _ => c == ',' || isJsWs c
       | [] => false), strL "^overall[,\\s]"⟩,
  ⟨sw "it is worth noting", strL "^it is worth noting"⟩,
  ⟨sw "it should be noted", strL "^it should be noted"⟩,
  ⟨sw "it is important to", strL "^it is important to"⟩,
  ⟨sw "this is a complex", strL "^this is a complex"⟩,
  ⟨sw "there are many", strL "^there are many"⟩,
  ⟨fun t => sw "as we can see" t || sw "as we mentioned" t || sw "as we discussed" t ||
      sw "as i can see" t || sw "as i mentioned" t || sw "as i discussed" t,
    strL "^as (we|i) (can see|mentioned|discussed)"⟩,
  ⟨sw "needless to say", strL "^needless to say"⟩,
  ⟨sw "at the end of the day", strL "^at the end of the day"⟩,
  ⟨sw "when all is said and done", strL "^when all is said and done"⟩,
  ⟨sw "last but not least", strL "^last but not least"⟩ ]

/-- Model of `QualityFilter._checkBannedPhrases` — the first matching pattern
source, if any. -/
def checkBannedPhrases (t : List Char) : Option (List Char) :=
  (bannedPatterns.find? (fun p => p.test (lowerL t))).map (·.src)

/-- Number of matched AI-ish phrase patterns (`QualityFilter._countAIPhrases`).
The argument is the lowered candidate text; each case-insensitive regex is
expanded into the equivalent word-boundary containment tests. -/
def countAIPhrases (tl : List Char) : Nat :=
  (([ containsWord (strL "certainly") tl,
      containsWord (strL "absolutely") tl,
      containsWord (strL "of course") tl,
      containsWord (strL "indeed") tl,
      containsWord (strL "fascinating") tl,
      containsWord (strL "insightful") tl,
      -- /\bsignificant(ly)?\b/
      (containsWord (strL "significant") tl || containsWord (strL "significantly") tl),
      containsWord (strL "complex issue") tl,
      -- /\bimportant (to note|aspect|factor)/ — boundary before only
      (containsBW (strL "important to note") tl || containsBW (strL "important aspect") tl ||
        containsBW (strL "important factor") tl)
   ] : List Bool).filter (fun b => b)).length

/-- Test of `/real.world applications/i` — `.` matches any character except a
line terminator. -/
def realWorldApps (tl : List Char) : Bool :=
  anySuffix (fun t =>
    (strL "real").isPrefixOf t &&
    (match (t.drop 4).head? with
     | some c => !(c == '\n' || c == '\r' || c.val == 0x2028 || c.val == 0x2029)
     | none => false) &&
    (strL "world applications").isPrefixOf (t.drop 5)) tl

/-- Model of `QualityFilter._genericityScore` on the lowered candidate text:
one point per matched generic-filler pattern. -/
def genericityScore (tl : List Char) : Nat :=
  (([ containsSub (strL "this approach has proven") tl,
      containsSub (strL "wide range of") tl,
      realWorldApps tl,
      (containsSub (strL "merits further") tl || containsSub (strL "merits careful") tl),
      (containsSub (strL "worth considering") tl || containsSub (strL "worth exploring") tl),
      (containsSub (strL "further analysis will") tl || containsSub (strL "further analysis may") tl),
      (containsSub (strL "extent beyond") tl || containsSub (strL "extent well beyond") tl ||
        containsSub (strL "extents beyond") tl || containsSub (strL "extents well beyond") tl),
      containsSub (strL "making informed decisions") tl,
      containsSub (strL "additional insights") tl
   ] : List Bool).filter (fun b => b)).length

/-- Number of overlapping 4-grams: the loop
`for (i = 0; i <= words.length - 4; i++) if (contextLower.includes(gram)) overlapping++`. -/
def overlapCount (ws : List (List Char)) (ctxLower : List Char) : Nat :=
  ((List.range (ws.length - 3)).filter
    (fun i => containsSub (joinSep [' '] ((ws.drop i).take 4)) ctxLower)).length

/-- Model of `QualityFilter._checkRepetition`.  The floating-point test
`overlapping / (words.length - 3) > 0.4` is modelled by the exact integer
comparison `5 * overlapping > 2 * (words.length - 3)`, which agrees with the
IEEE-754 double comparison for all word counts that fit in a document. -/
def checkRepetition (t : List Char) (ctx : WritingContext) : Bool :=
  if ctx.fullContext.isEmpty then false
  else if (jsSplitWs (lowerL t)).length < 4 then false
  else 5 * overlapCount (jsSplitWs (lowerL t)) (lowerL ctx.fullContext) >
         2 * ((jsSplitWs (lowerL t)).length - 3)

/-- First character in `A`–`Z` (regex `/^[A-Z]/`). -/
def startsUpper (t : List Char) : Bool :=
  match t.head? with
  | some c => 'A' ≤ c && c ≤ 'Z'
  | none => false

/-- First character lowercase or continuation punctuation (regex `/^[a-z,;—-]/`). -/
def startsCont (t : List Char) : Bool :=
  match t.head? with
  | some c => ('a' ≤ c && c ≤ 'z') || c == ',' || c == ';' || c == '—' || c == '-'
  | none => false

/-- JavaScript `activeSentence.endsWith(" ")` — a single space character, not
general whitespace. -/
def endsWithSpace (l : List Char) : Bool := l.getLast? == some ' '

/-- Word list of the candidate: `text.split(/\s+/).filter(w => w.length > 0)`. -/
def wordsOf (text : List Char) : List (List Char) :=
  (jsSplitWs text).filter (fun w => w.length > 0)

/-- The post-ladder score computation of `QualityFilter.validate` (the running
`score` variable, before clamping). -/
def rawScore (text : List Char) (wordCount : Nat) (ctx : WritingContext) : Int :=
  let tl := lowerL text
  let s1 : Int := 100 - 15 * (countAIPhrases tl : Int)
  let s2 := if startsUpper text && !ctx.activeSentence.isEmpty &&
               !endsWithSpace ctx.activeSentence then s1 - 20 else s1
  let s3 := if startsCont text then s2 + 10 else s2
  let s4 := if wordCount < 8 then s3 - 10 else s3
  let s5 := if wordCount > 50 then s4 - 25 else s4
  s5 - 25 * (genericityScore tl : Int)

/-- Model of `QualityFilter.validate` (QualityFilter.js lines 27–85). -/
def validate (sugg : List Char) (ctx : WritingContext) : QualityResult :=
  if sugg.isEmpty || (jsTrim sugg).isEmpty then ⟨false, 0, strL "empty"⟩
  else
    let text := jsTrim sugg
    if (wordsOf text).length < 4 then ⟨false, 10, strL "too_short"⟩
    else
      match checkBannedPhrases text with
      | some src => ⟨false, 15, strL "banned_phrase:" ++ src⟩
      | none =>
        if checkRepetition text ctx then ⟨false, 20, strL "repetition"⟩
        else
          let score := max 0 (min 100 (rawScore text (wordsOf text).length ctx))
          if score < 40 then ⟨false, score, strL "low_score"⟩
          else ⟨true, score, strL "ok"⟩

/-- Number of 4-word windows used as denominator of the repetition fraction. -/
def windowCount (ws : List (List Char)) : Nat := ws.length - 3

/-- Repetition check as worded by the specification: the fraction of
consecutive 4-word windows found in the lowercased `fullContext`, as an exact
rational, exceeds `0.4`.  (With fewer than four words there are no windows and
the fraction is `0/0 = 0`.) -/
def specRepetition (t : List Char) (ctx : WritingContext) : Bool :=
  decide ((2/5 : ℚ) <
    (overlapCount (jsSplitWs (lowerL t)) (lowerL ctx.fullContext) : ℚ) /
      (windowCount (jsSplitWs (lowerL t)) : ℚ))

/-- Score computation as worded by the (amended) claim: identical to
`rawScore`, with the −20 uppercase-start penalty applying when
`activeSentence` is non-empty and does not end with a space character. -/
def specRawScore (text : List Char) (wordCount : Nat) (ctx : WritingContext) : Int :=
  let tl := lowerL text
  let s1 : Int := 100 - 15 * (countAIPhrases tl : Int)
  let s2 := if startsUpper text && !ctx.activeSentence.isEmpty &&
               !endsWithSpace ctx.activeSentence then s1 - 20 else s1
  let s3 := if startsCont text then s2 + 10 else s2
  let s4 := if wordCount < 8 then s3 - 10 else s3
  let s5 := if wordCount > 50 then s4 - 25 else s4
  s5 - 25 * (genericityScore tl : Int)

/-- Rejection ladder as worded by the claim (with the amended uppercase-start
condition), first match winning: empty, too_short, banned phrase, repetition
fraction over the lowercased full context, then the adjusted score clamped to
`[0,100]` with validity exactly when the score reaches 40. -/
def validateSpec (sugg : List Char) (ctx : WritingContext) : QualityResult :=
  if sugg.isEmpty || (jsTrim sugg).isEmpty then ⟨false, 0, strL "empty"⟩
  else
    let text := jsTrim sugg
    if (wordsOf text).length < 4 then ⟨false, 10, strL "too_short"⟩
    else
      match checkBannedPhrases text with
      | some src => ⟨false, 15, strL "banned_phrase:" ++ src⟩
      | none =>
        if specRepetition text ctx then ⟨false, 20, strL "repetition"⟩
        else
          let score := max 0 (min 100 (specRawScore text (wordsOf text).length ctx))
          if score < 40 then ⟨false, score, strL "low_score"⟩
          else ⟨true, score, strL "ok"⟩

/-- Ends-in-whitespace test, as literally worded by the original claim. -/
def endsWithWsClaimed (l : List Char) : Bool :=
  match l.getLast? with
  | some c => isJsWs c
  | none => false

/-- Score computation as literally worded by the original claim: the −20
penalty applies to an uppercase start whenever `activeSentence` does not end
in whitespace. -/
def claimedRawScore (text : List Char) (wordCount : Nat) (ctx : WritingContext) : Int :=
  let tl := lowerL text
  let s1 : Int := 100 - 15 * (countAIPhrases tl : Int)
  let s2 := if startsUpper text && !endsWithWsClaimed ctx.activeSentence then s1 - 20 else s1
  let s3 := if startsCont text then s2 + 10 else s2
  let s4 := if wordCount < 8 then s3 - 10 else s3
  let s5 := if wordCount > 50 then s4 - 25 else s4
  s5 - 25 * (genericityScore tl : Int)

/-- Rejection ladder exactly as the original claim words it (uppercase-start
penalty gated on "activeSentence does not end in whitespace"). -/
def validateClaimed (sugg : List Char) (ctx : WritingContext) : QualityResult :=
  if sugg.isEmpty || (jsTrim sugg).isEmpty then ⟨false, 0, strL "empty"⟩
  else
    let text := jsTrim sugg
    if (wordsOf text).length < 4 then ⟨false, 10, strL "too_short"⟩
    else
      match checkBannedPhrases text with
      | some src => ⟨false, 15, strL "banned_phrase:" ++ src⟩
      | none =>
        if specRepetition text ctx then ⟨false, 20, strL "repetition"⟩
        else
          let score := max 0 (min 100 (claimedRawScore text (wordsOf text).length ctx))
          if score < 40 then ⟨false, score, strL "low_score"⟩
          else ⟨true, score, strL "ok"⟩

/-- Candidate of the C2 counterexample: eight plain words starting with an
uppercase letter, no banned/AI/generic pattern. -/
def c2cand : List Char := strL "These results confirm the earlier hypothesis clearly today"

/-- Context of the C2 counterexample: `activeSentence` ends in a tab — which
is whitespace but not the space character tested by `endsWith(" ")`. -/
def c2ctx : WritingContext := ⟨strL "and so" ++ ['\t'], [], [], [], []⟩

end QualityFilter

/-! GhostRenderer.js — overlay state.  Fields mirror the mutable state of the
`GhostRenderer` class and of its DOM element: `attached` is `_el !== null`
(note `detach` removes the element from the document but never nulls `_el`,
hence the separate `inDocument`), `elText` is `_el.textContent`, the three
`class*` fields are the css classes on `_el`, `pendingFadeIn` models the
queued double-`requestAnimationFrame` callback of `show`, and
`pendingAcceptCleanup` the 130 ms `setTimeout` of `accept`. -/

inductive DisplayMode
  | displayNone
  | inline
  | inlineBlock
deriving DecidableEq, Repr

structure GhostState where
  attached : Bool
  inDocument : Bool
  visible : Bool
  currentText : List Char
  elText : List Char
  display : DisplayMode
  classLoading : Bool
  classVisible : Bool
  classAccepting : Bool
  loopRunning : Bool
  pendingFadeIn : Bool
  pendingAcceptCleanup : Bool
deriving DecidableEq, Repr

/-- Constructor state of `GhostRenderer`. -/
def GhostState.init : GhostState :=
  ⟨false, false, false, [], [], .displayNone, false, false, false, false, false, false⟩

namespace GhostRenderer

/-- Sanitization performed by `show`:
`text.replace(/\r?\n+/g, " ").replace(/\s+/g, " ").trimStart()`.
First pass: each maximal match of `\r?\n+` becomes one space. -/
def collapseNlGo (prevNl : Bool) : List Char → List Char
  | [] => []
  | c :: rest =>
      if c == '\n' then
        if prevNl then collapseNlGo true rest
        else ' ' :: collapseNlGo true rest
      else if c == '\r' && rest.head? == some '\n' then
        ' ' :: collapseNlGo true rest
      else c :: collapseNlGo false rest

def collapseNl (l : List Char) : List Char := collapseNlGo false l

/-- Worker of the second sanitization pass. -/
def collapseWsGo (inWs : Bool) : List Char → List Char
  | [] => []
  | c :: rest =>
      if isJsWs c then
        if inWs then collapseWsGo true rest
        else ' ' :: collapseWsGo true rest
      else c :: collapseWsGo false rest

/-- Second pass of the sanitization: each maximal whitespace run becomes one
space. -/
def collapseWs (l : List Char) : List Char := collapseWsGo false l

/-- The full sanitization of `GhostRenderer.show`. -/
def sanitize (t : List Char) : List Char := jsTrimStart (collapseWs (collapseNl t))

/-- Model of `GhostRenderer.attach` (a fresh element is created; the class
fields `_visible`/`_currentText` are untouched). -/
def attach (g : GhostState) : GhostState :=
  { g with attached := true, inDocument := true, elText := [],
           display := .displayNone, classLoading := false, classVisible := false,
           classAccepting := false }

/-- Model of `GhostRenderer.detach` (stops the loop and removes the element
from the document; `_el` itself is kept). -/
def detach (g : GhostState) : GhostState :=
  { g with loopRunning := false, inDocument := false }

/-- Model of `GhostRenderer.showLoading`.  Note that `_currentText` is NOT
cleared. -/
def showLoading (g : GhostState) : GhostState :=
  if !g.attached then g
  else
    { g with elText := [], classLoading := true, classVisible := false,
             classAccepting := false, display := .inlineBlock, visible := true,
             loopRunning := true }

/-- Model of `GhostRenderer.show(text)` (named `showText` because `show` is a
Lean keyword).  The argument is `Option`al to model `null`/`undefined`. -/
def showText (t : Option (List Char)) (g : GhostState) : GhostState :=
  if !g.attached || (jsTrim (t.getD [])).isEmpty then g
  else
    { g with currentText := sanitize (t.getD []),
             elText := sanitize (t.getD []),
             classLoading := false, classVisible := false, classAccepting := false,
             display := .inline, visible := true, pendingFadeIn := true,
             loopRunning := true }

/-- Model of `GhostRenderer.hide`. -/
def hide (g : GhostState) : GhostState :=
  if !g.attached || !g.visible then g
  else
    { g with visible := false, currentText := [], classVisible := false,
             classLoading := false, display := .displayNone, loopRunning := false }

/-- Model of `GhostRenderer.accept`.  Note that `_currentText` is NOT
cleared; the element cleanup happens 130 ms later (`fireAcceptCleanup`). -/
def accept (g : GhostState) : GhostState :=
  if !g.attached then g
  else
    { g with classVisible := false, classAccepting := true, visible := false,
             loopRunning := false, pendingAcceptCleanup := true }

/-- The queued double-rAF callback of `show` firing. -/
def fireFadeIn (g : GhostState) : GhostState :=
  if g.pendingFadeIn then
    if g.attached then { g with classVisible := true, pendingFadeIn := false }
    else { g with pendingFadeIn := false }
  else g

/-- The 130 ms `setTimeout` callback of `accept` firing. -/
def fireAcceptCleanup (g : GhostState) : GhostState :=
  if g.pendingAcceptCleanup then
    if g.attached then
      { g with classAccepting := false, display := .displayNone, elText := [],
               pendingAcceptCleanup := false }
    else { g with pendingAcceptCleanup := false }
  else g

/-- Model of `GhostRenderer.getText`. -/
def getText (g : GhostState) : List Char := g.currentText

/-- Model of `GhostRenderer.isVisible`. -/
def isVisible (g : GhostState) : Bool := g.visible

end GhostRenderer

/-- Public operations of the overlay (one constructor per method, plus the
two deferred callbacks). -/
inductive GhostOp
  | attach
  | detach
  | showText (t : Option (List Char))
  | showLoading
  | hide
  | accept
  | fireFadeIn
  | fireAcceptCleanup
deriving DecidableEq, Repr

/-- One overlay operation applied to the state. -/
def ghostStep (g : GhostState) : GhostOp → GhostState
  | .attach => GhostRenderer.attach g
  | .detach => GhostRenderer.detach g
  | .showText t => GhostRenderer.showText t g
  | .showLoading => GhostRenderer.showLoading g
  | .hide => GhostRenderer.hide g
  | .accept => GhostRenderer.accept g
  | .fireFadeIn => GhostRenderer.fireFadeIn g
  | .fireAcceptCleanup => GhostRenderer.fireAcceptCleanup g

/-- A sequence of overlay operations applied from a state. -/
def ghostRun (g : GhostState) : List GhostOp → GhostState
  | [] => g
  | op :: ops => ghostRun (ghostStep g op) ops

/-- Abstract view used by the amended C6 claim: attachment, visibility and
stored candidate as determined by the operation sequence alone. -/
structure VisView where
  att : Bool
  vis : Bool
  txt : List Char
deriving DecidableEq, Repr

/-- One step of the amended C6 claim: `show` with a non-blank argument and
`showLoading` turn visibility on, `hide` (when visible) and `accept` turn it
off; only an effective `show` stores a (sanitized) candidate and only an
effective `hide` clears it. -/
def visViewStep (s : VisView) : GhostOp → VisView
  | .attach => { s with att := true }
  | .showText t =>
      if s.att && !(jsTrim (t.getD [])).isEmpty then
        { s with vis := true, txt := GhostRenderer.sanitize (t.getD []) }
      else s
  | .showLoading => if s.att then { s with vis := true } else s
  | .hide => if s.att && s.vis then { s with vis := false, txt := [] } else s
  | .accept => if s.att then { s with vis := false } else s
  | .detach => s
  | .fireFadeIn => s
  | .fireAcceptCleanup => s

def visViewRun (s : VisView) : List GhostOp → VisView
  | [] => s
  | op :: ops => visViewRun (visViewStep s op) ops

/-- No newline character occurs in the string. -/
def noNewline (t : List Char) : Bool := !(t.any (fun c => c == '\n'))

/-- No two consecutive whitespace characters occur in the string. -/
def noWsRun : List Char → Bool
  | c :: d :: rest => !(isJsWs c && isJsWs d) && noWsRun (d :: rest)
  | _ => true

/-- The string does not start with whitespace. -/
def noLeadWs (t : List Char) : Bool :=
  match t.head? with
  | some c => !isJsWs c
  | none => true

/-- The three sanitization conditions of C9, bundled. -/
def sanitizedShape (t : List Char) : Prop :=
  noNewline t = true ∧ noWsRun t = true ∧ noLeadWs t = true


/-! ContextManager.js — geometric context extraction.  The rendered surface
is abstracted as the queryable DOM data the module reads: bounding-box
rectangles (integer pixel coordinates) and `textContent` strings of the
cursor, the paragraph renderers, their line views and their sub-spans. -/

structure Rect where
  top : Int
  bottom : Int
  left : Int
  right : Int
  width : Int
deriving DecidableEq, Repr

structure SpanEl where
  rect : Rect
  text : List Char
deriving DecidableEq, Repr

structure LineEl where
  rect : Rect
  text : List Char
  spans : List SpanEl
deriving DecidableEq, Repr

structure ParaEl where
  rect : Rect
  text : List Char
  lines : List LineEl
deriving DecidableEq, Repr

/-- The queryable surface: the `.kix-cursor` bounding box (if an indicator is
locatable) and the `.kix-paragraphrenderer` elements in document order. -/
structure Surface where
  cursor : Option Rect
  paraEls : List ParaEl
deriving DecidableEq, Repr

/-- JavaScript `Math.round` (half-up, toward +∞) on an exact rational. -/
def jsRound (q : ℚ) : Int := Int.floor (q + 1/2)

/-- Exact integer computation of `Math.round(num / den)` for `den ≠ 0`:
`⌊num/den + 1/2⌋ = ⌊(2·num + den) / (2·den)⌋`, with the floor division taken
after normalizing the denominator to be positive.  `jsRoundRatio_eq_jsRound`
below proves it agrees with the rational definition of `Math.round`. -/
def jsRoundRatio (num den : Int) : Int :=
  if 0 ≤ den then Int.fdiv (2 * num + den) (2 * den)
  else Int.fdiv (-(2 * num + den)) (-(2 * den))

/-- JavaScript `str.slice(0, e)` for a possibly negative `e`. -/
def jsSliceTo (l : List Char) (e : Int) : List Char :=
  l.take (if e < 0 then (l.length + e).toNat else e.toNat)

/-- JavaScript `str.slice(-n)` (the last `n` characters). -/
def jsSliceLast (l : List Char) (n : Nat) : List Char := l.drop (l.length - n)

namespace ContextManager

/-- The inner span walk of `_textBeforeCursorInPara` (with its `break`
semantics): spans whose right edge is at most `cursorX + 2` are taken in
full; the first remaining span starting left of the cursor is truncated by
the width ratio and ends the walk; any other span ends the walk. -/
def spanWalk (cursorX : Int) : List SpanEl → List Char
  | [] => []
  | sp :: rest =>
      if sp.rect.right ≤ cursorX + 2 then replNbsp sp.text ++ spanWalk cursorX rest
      else if sp.rect.left < cursorX then
        -- t.slice(0, Math.round(t.length * ((cursorX - sr.left) / (sr.width || 1))))
        jsSliceTo (replNbsp sp.text)
          (jsRoundRatio (((replNbsp sp.text).length : Int) * (cursorX - sp.rect.left))
            (if sp.rect.width = 0 then 1 else sp.rect.width))
      else []

/-- Per-line contribution inside `_textBeforeCursorInPara`.  The first test is
the source's `if (lineRect.bottom < cursorX - 80)` — it compares the line's
bottom (a vertical coordinate) against the cursor's horizontal position. -/
def lineContribution (cursorX : Int) (ln : LineEl) : List Char :=
  if ln.rect.bottom < cursorX - 80 then replNbsp ln.text
  else if ln.spans.isEmpty then replNbsp ln.text
  else spanWalk cursorX ln.spans

/-- Model of `ContextManager._textBeforeCursorInPara`. -/
def textBeforeCursorInPara (para : ParaEl) (cursorX : Int) : List Char :=
  (para.lines.map (lineContribution cursorX)).join

/-- Model of `ContextManager._getAllParagraphTexts`. -/
def getAllParagraphTexts (s : Surface) : List (List Char) :=
  (s.paraEls.map (fun p => jsTrim (replNbsp p.text))).filter (fun t => !t.isEmpty)

/-- The cursor-paragraph search loop of `_getTextBeforeCursor`: first
paragraph whose vertical span contains the cursor top within a 4-pixel
tolerance, defaulting to the last index. -/
def cursorParaIdx (cr : Rect) (paraEls : List ParaEl) : Nat :=
  match paraEls.findIdx? (fun p =>
      decide (p.rect.top - 4 ≤ cr.top) && decide (cr.top ≤ p.rect.bottom + 4)) with
  | some i => i
  | none => paraEls.length - 1

/-- Model of `ContextManager._getTextBeforeCursor`, returning
`(beforeCursor, cursorParaIdx)`. -/
def getTextBeforeCursor (s : Surface) (cr : Rect) (paragraphs : List (List Char)) :
    List Char × Nat :=
  let idx := cursorParaIdx cr s.paraEls
  let beforeParas := (paragraphs.take idx).drop (idx - 4)
  let cursorPara :=
    match s.paraEls[idx]? with
    | some p => textBeforeCursorInPara p cr.left
    | none => paragraphs.getD idx []
  (jsTrim (joinSep [' '] (beforeParas ++ [cursorPara])), idx)

/-- Validity of the `[^\n.!?]{0,300}$` capture group. -/
def capOk (l : List Char) : Option (List Char) :=
  if l.length ≤ 300 && l.all (fun c => !(c == '\n' || c == '.' || c == '!' || c == '?')) then
    some l
  else none

/-- Attempt of the regex `/(?:[.!?]\s+|\n)([^\n.!?]{0,300})$/` at the current
position.  The `\s+` is taken greedily: if the capture after the maximal
whitespace run is invalid (too long or containing a banned character), every
shorter run only enlarges the capture, so no backtrack can succeed. -/
def tryBoundary : List Char → Option (List Char)
  | [] => none
  | c :: rest =>
      if c == '.' || c == '!' || c == '?' then
        if (rest.takeWhile isJsWs).isEmpty then none
        else capOk (rest.drop (rest.takeWhile isJsWs).length)
      else if c == '\n' then capOk rest
      else none

/-- Leftmost match of the sentence-boundary regex: the capture group of
`text.match(/(?:[.!?]\s+|\n)([^\n.!?]{0,300})$/)`. -/
def lastSentenceCapture : List Char → Option (List Char)
  | [] => none
  | c :: rest =>
      match tryBoundary (c :: rest) with
      | some cap => some cap
      | none => lastSentenceCapture rest

/-- Model of `ContextManager._extractActiveSentence`. -/
def extractActiveSentence (text : List Char) : List Char :=
  match lastSentenceCapture text with
  | some cap => jsTrim cap
  | none => jsTrim (jsSliceLast text 200)

/-- Model of `ContextManager._getRecentParagraphs`. -/
def getRecentParagraphs (paragraphs : List (List Char)) (idx : Nat) : List (List Char) :=
  ((paragraphs.take (idx + 1)).drop (idx - 2)).filter (fun p => p.length > 10)

/-- Model of `ContextManager._getDocumentSummary`. -/
def getDocumentSummary (paragraphs : List (List Char)) : List Char :=
  let meaningful := paragraphs.filter (fun p => p.length > 30)
  let sample := joinSep [' '] (meaningful.take 2)
  if sample.length > 200 then sample.take 200 ++ strL "…" else sample

def academicSignals : List (List Char) :=
  [strL "therefore", strL "thus", strL "furthermore", strL "however", strL "methodology",
   strL "analysis", strL "hypothesis", strL "whereas", strL "albeit", strL "indeed",
   strL "notably", strL "evidence", strL "demonstrates", strL "suggests", strL "research",
   strL "study", strL "findings"]

def formalSignals : List (List Char) :=
  [strL "regarding", strL "pursuant", strL "hereby", strL "aforementioned",
   strL "notwithstanding", strL "henceforth", strL "accordingly", strL "consequently",
   strL "nevertheless"]

def persuasiveSignals : List (List Char) :=
  [strL "must", strL "should", strL "crucial", strL "essential", strL "imperative",
   strL "undeniably", strL "clearly", strL "obviously", strL "argue", strL "believe",
   strL "position"]

def casualSignals : List (List Char) :=
  [strL "i" ++ [apoCh] ++ strL "m", strL "you" ++ [apoCh] ++ strL "re",
   strL "we" ++ [apoCh] ++ strL "re", strL "it" ++ [apoCh] ++ strL "s",
   strL "don" ++ [apoCh] ++ strL "t", strL "can" ++ [apoCh] ++ strL "t",
   strL "won" ++ [apoCh] ++ strL "t", strL "basically", strL "actually",
   strL "pretty much", strL "kind of", strL "sort of", strL "really"]

def narrativeSignals : List (List Char) :=
  [strL "then", strL "suddenly", strL "walked", strL "said", strL "felt", strL "saw",
   strL "looked", strL "turned", strL "seemed", strL "realized", strL "knew",
   strL "thought"]

/-- First entry carrying the maximal score — the `[0]` of the stable
descending sort over `Object.entries(scores)` in insertion order. -/
def pickTop : List (List Char × Nat) → (List Char × Nat)
  | [] => (strL "formal", 0)
  | [x] => x
  | x :: y :: rest =>
      let t := pickTop (y :: rest)
      if x.2 ≥ t.2 then x else t

/-- Model of `ContextManager._inferTone`.  The floating-point test
`avgSentenceLen > 20` (with `avgSentenceLen = wordCount / max(1, sentences)`)
is modelled by exact cross-multiplication. -/
def inferTone (text : List Char) : List Char :=
  let lower := lowerL text
  let wordCount := (jsSplitWs text).length
  let sentenceCount := (text.filter (fun c => c == '.' || c == '!' || c == '?')).length
  let score := fun (signals : List (List Char)) =>
    (signals.filter (fun s => containsSub s lower)).length
  let academic := score academicSignals * 2
  let formal := score formalSignals * 2
  let persuasive := score persuasiveSignals
  let casual := score casualSignals
  let narrative := score narrativeSignals
  let longBias := wordCount > 20 * max 1 sentenceCount
  let entries : List (List Char × Nat) :=
    [(strL "academic", if longBias then academic + 2 else academic),
     (strL "formal", if longBias then formal + 1 else formal),
     (strL "persuasive", persuasive),
     (strL "casual", casual),
     (strL "narrative", narrative)]
  let top := pickTop entries
  if top.2 > 0 then top.1 else strL "formal"

/-- Model of `ContextManager.extract`. -/
def extract (s : Surface) : Option WritingContext :=
  match s.cursor with
  | none => none
  | some cr =>
      if (getAllParagraphTexts s).isEmpty then none
      else if (getTextBeforeCursor s cr (getAllParagraphTexts s)).1.isEmpty
              || (getTextBeforeCursor s cr (getAllParagraphTexts s)).1.length < 10 then none
      else some
        { activeSentence :=
            extractActiveSentence (getTextBeforeCursor s cr (getAllParagraphTexts s)).1
          recentParagraphs :=
            getRecentParagraphs (getAllParagraphTexts s)
              (getTextBeforeCursor s cr (getAllParagraphTexts s)).2
          documentSummary := getDocumentSummary (getAllParagraphTexts s)
          detectedTone := inferTone (joinSep [' '] (getAllParagraphTexts s))
          fullContext := (getTextBeforeCursor s cr (getAllParagraphTexts s)).1 }

/-- The `beforeCursor` text gathered for a surface (empty when no cursor is
locatable); used to state the failure condition of `extract`. -/
def beforeCursorOf (s : Surface) : List Char :=
  match s.cursor with
  | none => []
  | some cr => (getTextBeforeCursor s cr (getAllParagraphTexts s)).1

/-- Rendered paragraph of the C4 failing input: two lines, the first lying
entirely above the second (the cursor's line); each line has one sub-span
spanning x ∈ [0, 200]. -/
def c4para : ParaEl :=
  ⟨⟨10, 60, 0, 200, 200⟩, strL "first line second line",
   [⟨⟨10, 30, 0, 200, 200⟩, strL "first line ",
     [⟨⟨10, 30, 0, 200, 200⟩, strL "first line "⟩]⟩,
    ⟨⟨40, 60, 0, 200, 200⟩, strL "second line",
     [⟨⟨40, 60, 0, 200, 200⟩, strL "second line"⟩]⟩]⟩

/-- Concrete surface of the C5 witness: a locatable cursor and one rendered
paragraph with 20 characters of text before the cursor. -/
def sW : Surface :=
  ⟨some ⟨45, 60, 1000, 1005, 5⟩,
   [⟨⟨10, 60, 0, 200, 200⟩, strL "hello world sentence",
     [⟨⟨40, 60, 0, 200, 200⟩, strL "hello world sentence", []⟩]⟩]⟩

end ContextManager

namespace PromptEngine

/-- Model of `PromptEngine.buildUserPrompt` (the system prompt is a constant
per tone and is not tracked by the pipeline model). -/
def buildUserPrompt (ctx : WritingContext) : List Char :=
  joinSep (strL "\n\n---\n\n")
    ((if !ctx.documentSummary.isEmpty && ctx.documentSummary.length > 20 then
        [strL "DOCUMENT CONTEXT:\n" ++ ctx.documentSummary]
      else []) ++
     (if ctx.recentParagraphs.length > 1 &&
         !(jsTrim (joinSep (strL "\n\n") ctx.recentParagraphs.dropLast)).isEmpty then
        [strL "RECENT PARAGRAPHS:\n" ++ joinSep (strL "\n\n") ctx.recentParagraphs.dropLast]
      else []) ++
     [strL "COMPLETE THIS SENTENCE (do not repeat it, only add what comes next):\n" ++
        ctx.activeSentence])

end PromptEngine

/-! SuggestionController.js — the request life cycle, modelled as a total
step function over an explicit state.  Asynchronous continuations (`await`
points) become events: `debounceFire` carries the extraction result read from
the surface, and `response i r` delivers the result of the `i`-th in-flight
`requestCompletion` call (`r` is the resolved suggestion string or the error
message of a rejection; the `try`/`catch` of `_fetchSuggestion` makes the
continuation total, so no exception escapes to the caller).  Because `start`
never disconnects a previously created `MutationObserver`, the model counts
connected observers; one `surfaceChange` event is one observer callback
invocation (only deliverable while at least one observer is connected). -/

inductive Stage
  | first
  | retry
deriving DecidableEq, Repr

/-- One in-flight `requestCompletion` call: the generation captured as
`myGen` when it was issued, the context of its cycle, whether it is the
first attempt or the retry, and its user prompt. -/
structure Pending where
  gen : Nat
  ctx : WritingContext
  stage : Stage
  userPrompt : List Char
deriving DecidableEq, Repr

structure CtrlState where
  generation : Nat
  connectedObservers : Nat
  hasCurrentObserver : Bool
  debounceArmed : Bool
  ghost : GhostState
  pending : List Pending
  warnings : List (List Char)
deriving DecidableEq, Repr

/-- Constructor state of `SuggestionController` (with a fresh
`GhostRenderer`). -/
def CtrlState.init : CtrlState := ⟨0, 0, false, false, GhostState.init, [], []⟩

inductive Ev
  | surfaceChange
  | debounceFire (octx : Option WritingContext)
  | response (i : Nat) (r : Except (List Char) (List Char))
  | dismiss
  | accept
  | stop
  | start
deriving Repr

namespace SuggestionController

/-- The note appended to the user prompt for the retry request. -/
def retryNote : List Char :=
  strL "\n\n(Previous attempt was rejected. Try a more specific, natural continuation.)"

/-- Processing of a resolved request: the body of `_fetchSuggestion` together
with the continuation of `_run` after the corresponding `await`.  A stale
result (live generation differing from the captured one) is dropped with no
further effect; a fresh error hides the overlay and logs a warning unless the
message is exactly `"disabled"`; a fresh empty suggestion is dropped
(`suggestion || null`); otherwise the suggestion is validated and shown,
retried once, or (after a failed retry) the overlay is hidden. -/
def processResponse (s : CtrlState) (i : Nat) (r : Except (List Char) (List Char)) :
    CtrlState :=
  match s.pending.get? i with
  | none => s
  | some p =>
      let s0 : CtrlState := { s with pending := s.pending.eraseIdx i }
      match r with
      | .error e =>
          if s.generation ≠ p.gen then s0
          else
            { s0 with ghost := GhostRenderer.hide s0.ghost,
                      warnings := if e = strL "disabled" then s0.warnings
                                  else s0.warnings ++ [e] }
      | .ok v =>
          if s.generation ≠ p.gen then s0
          else if v.isEmpty then s0
          else if (QualityFilter.validate v p.ctx).valid then
            { s0 with ghost := GhostRenderer.showText (some v) s0.ghost }
          else
            match p.stage with
            | .first =>
                { s0 with pending :=
                    s0.pending ++ [⟨p.gen, p.ctx, .retry, p.userPrompt ++ retryNote⟩] }
            | .retry => { s0 with ghost := GhostRenderer.hide s0.ghost }

/-- One event applied to the controller state. -/
def step (s : CtrlState) : Ev → CtrlState
  | .surfaceChange =>
      if s.connectedObservers = 0 then s
      else
        { s with ghost := GhostRenderer.hide s.ghost,
                 generation := s.generation + 1, debounceArmed := true }
  | .debounceFire octx =>
      if !s.debounceArmed then s
      else
        match octx with
        | none => { s with debounceArmed := false }
        | some c =>
            if c.activeSentence.length < 10 then { s with debounceArmed := false }
            else
              { s with debounceArmed := false,
                       generation := s.generation + 1,
                       ghost := GhostRenderer.showLoading s.ghost,
                       pending := s.pending ++
                         [⟨s.generation + 1, c, .first, PromptEngine.buildUserPrompt c⟩] }
  | .response i r => processResponse s i r
  | .dismiss =>
      { s with generation := s.generation + 1, debounceArmed := false,
               ghost := GhostRenderer.hide s.ghost }
  | .accept =>
      if s.ghost.currentText.isEmpty then s
      else
        { s with ghost := GhostRenderer.hide (GhostRenderer.accept s.ghost),
                 generation := s.generation + 1, debounceArmed := false }
  | .stop =>
      { s with hasCurrentObserver := false,
               connectedObservers :=
                 s.connectedObservers - (if s.hasCurrentObserver then 1 else 0),
               debounceArmed := false, generation := s.generation + 1,
               ghost := GhostRenderer.hide s.ghost }
  | .start =>
      { s with connectedObservers := s.connectedObservers + 1,
               hasCurrentObserver := true }

/-- A sequence of events applied from a state. -/
def runEvents (s : CtrlState) : List Ev → CtrlState
  | [] => s
  | e :: evs => runEvents (step s e) evs

/-- The events on which the (amended) claim asserts the generation counter is
incremented. -/
def genIncrements (s : CtrlState) : Ev → Bool
  | .surfaceChange => s.connectedObservers ≠ 0
  | .debounceFire octx =>
      s.debounceArmed &&
        (match octx with
         | none => false
         | some c => 10 ≤ c.activeSentence.length)
  | .response _ _ => false
  | .dismiss => true
  | .accept => !s.ghost.currentText.isEmpty
  | .stop => true
  | .start => false

/-- Context used by several concrete controller states. -/
def wctx : WritingContext :=
  ⟨strL "The regression analysis", [], [], strL "formal", strL "The regression analysis"⟩

/-- Pending first request with generation 1 used by concrete witnesses. -/
def pend1 : Pending := ⟨1, wctx, .first, strL "PROMPT"⟩

/-- Pending retry request with generation 1. -/
def pend2 : Pending := ⟨1, wctx, .retry, strL "PROMPT2"⟩

/-- State for the C7 counterexample: an armed debounce timer, one connected
observer, nothing else pending. -/
def s7 : CtrlState := ⟨5, 1, true, true, GhostState.init, [], []⟩

/-- Fresh controller state awaiting the first response (generation matches
the pending request), overlay in loading state. -/
def sFresh : CtrlState :=
  ⟨1, 1, true, false, ghostRun GhostState.init [.attach, .showLoading], [pend1], []⟩

/-- Fresh controller state awaiting the retry response. -/
def sFresh2 : CtrlState :=
  ⟨1, 1, true, false, ghostRun GhostState.init [.attach, .showLoading], [pend2], []⟩

/-- Stale controller state: the live generation (2) has moved past the
pending request's captured generation (1). -/
def sStale : CtrlState :=
  ⟨2, 1, true, false, ghostRun GhostState.init [.attach, .showLoading], [pend1], []⟩

/-- Valid continuation used by concrete controller states. -/
def vOk : List Char := strL "which suggests a strong correlation between the two variables."

/-- Rejected (banned-phrase) candidate used by concrete controller states. -/
def vRej : List Char := strL "In conclusion, the results support the hypothesis."


end SuggestionController

/-! Lemmas and claim theorems. -/

lemma dropWhile_head_false {α : Type} (p : α → Bool) :
    ∀ (l : List α) (c : α) (rest : List α),
      l.dropWhile p = c :: rest → p c = false := by
  intro l
  induction l with
  | nil => intro c rest h; simp [List.dropWhile] at h
  | cons a t ih =>
      intro c rest h
      by_cases hp : p a
      · rw [List.dropWhile_cons_of_pos hp] at h; exact ih c rest h
      · rw [List.dropWhile_cons_of_neg hp] at h
        cases h; simpa using hp


namespace QualityFilter

lemma joinSep_ne_nil {l : List (List Char)} (h : 2 ≤ l.length) :
    joinSep [' '] l ≠ [] := by
  match l, h with
  | x :: y :: rest, _ =>
      show x ++ [' '] ++ joinSep [' '] (y :: rest) ≠ []
      intro hc
      have := congrArg List.length hc
      simp at this

lemma overlapCount_gram_ne_nil (ws : List (List Char)) (i : Nat)
    (hi : i < ws.length - 3) : joinSep [' '] ((ws.drop i).take 4) ≠ [] := by
  apply joinSep_ne_nil
  have hlen : (ws.drop i).length = ws.length - i := List.length_drop i ws
  have : ((ws.drop i).take 4).length = min 4 (ws.length - i) := by
    rw [List.length_take, hlen]
  omega

lemma overlapCount_nil (ws : List (List Char)) : overlapCount ws [] = 0 := by
  unfold overlapCount
  rw [List.length_eq_zero, List.filter_eq_nil]
  intro i hi
  rw [List.mem_range] at hi
  have hne := overlapCount_gram_ne_nil ws i hi
  show ¬ containsSub (joinSep [' '] ((ws.drop i).take 4)) [] = true
  show ¬ (joinSep [' '] ((ws.drop i).take 4)).isEmpty = true
  simpa [List.isEmpty_iff] using hne

lemma ratio_gt_iff (k n : Nat) (hn : 0 < n) :
    ((2/5 : ℚ) < (k : ℚ) / (n : ℚ)) ↔ 2 * n < 5 * k := by
  have hn' : (0 : ℚ) < (n : ℚ) := by exact_mod_cast hn
  rw [show ((2:ℚ)/5) = (2:ℚ)/(5:ℚ) from rfl, div_lt_div_iff (by norm_num) hn']
  constructor
  · intro h
    have : (2 * n : ℚ) < (5 * k : ℚ) := by push_cast; linarith
    exact_mod_cast this
  · intro h
    have : (2 * n : ℚ) < (5 * k : ℚ) := by exact_mod_cast h
    push_cast at this; linarith

lemma specRepetition_false_of_short (t : List Char) (ctx : WritingContext)
    (hlen : (jsSplitWs (lowerL t)).length < 4) : specRepetition t ctx = false := by
  have h0 : windowCount (jsSplitWs (lowerL t)) = 0 := by
    unfold windowCount; omega
  have hov : overlapCount (jsSplitWs (lowerL t)) (lowerL ctx.fullContext) = 0 := by
    unfold overlapCount
    have : (jsSplitWs (lowerL t)).length - 3 = 0 := by omega
    simp [this]
  unfold specRepetition
  rw [h0, hov]
  norm_num

/-- The implemented repetition test coincides with the specification-worded
exact-fraction test on every input. -/
lemma checkRepetition_eq_spec (t : List Char) (ctx : WritingContext) :
    checkRepetition t ctx = specRepetition t ctx := by
  by_cases hlen : (jsSplitWs (lowerL t)).length < 4
  · rw [specRepetition_false_of_short t ctx hlen]
    unfold checkRepetition
    by_cases hctx : ctx.fullContext.isEmpty
    · rw [if_pos hctx]
    · rw [if_neg hctx, if_pos hlen]
  · have hn : 0 < windowCount (jsSplitWs (lowerL t)) := by
      unfold windowCount; omega
    unfold checkRepetition specRepetition
    by_cases hctx : ctx.fullContext.isEmpty
    · rw [if_pos hctx]
      have hnil : lowerL ctx.fullContext = [] := by
        rw [List.isEmpty_iff] at hctx; rw [hctx]; rfl
      rw [hnil, overlapCount_nil]
      have : ¬ ((2/5 : ℚ) < (0 : Nat) / (windowCount (jsSplitWs (lowerL t)) : ℚ)) := by
        norm_num
      simp only [decide_eq_false this]
    · rw [if_neg hctx, if_neg hlen]
      have hiff := ratio_gt_iff (overlapCount (jsSplitWs (lowerL t)) (lowerL ctx.fullContext))
        (windowCount (jsSplitWs (lowerL t))) hn
      have hwc : windowCount (jsSplitWs (lowerL t)) = (jsSplitWs (lowerL t)).length - 3 := rfl
      rw [decide_eq_decide, hiff, hwc]

lemma rawScore_eq_spec : @rawScore = @specRawScore := rfl

/-- C2 (amended): for every candidate string and context, `validate` follows
the claim's rejection ladder in order with first match winning — empty,
too_short (fewer than 4 words), banned_phrase, repetition (exact window
fraction over the lowercased `fullContext` exceeding `0.4`), then the
adjusted score clamped to `[0,100]` with reason `low_score` below 40 and
`ok`/valid otherwise.  Amendment forced by the counterexample: the −20
uppercase-start penalty applies when `activeSentence` is non-empty and does
not end with a space character (the source tests `endsWith(" ")`), not
whenever it "does not end in whitespace". -/
theorem C2_validate_matches_spec_ladder :
    ∀ (sugg : List Char) (ctx : WritingContext),
      validate sugg ctx = validateSpec sugg ctx := by
  intro sugg ctx
  unfold validate validateSpec
  simp only [checkRepetition_eq_spec, rawScore_eq_spec]


/-- C2 (counterexample): on a candidate starting with an uppercase letter
while `activeSentence` ends in a tab, the code applies the −20 penalty
(score 80) whereas the claim's wording ("does not end in whitespace")
predicts no penalty (score 100).  The claim as stated is therefore false at
this input. -/
theorem C2_claim_counterexample :
    validate c2cand c2ctx = ⟨true, 80, strL "ok"⟩ ∧
      validateClaimed c2cand c2ctx = ⟨true, 100, strL "ok"⟩ ∧
      validate c2cand c2ctx ≠ validateClaimed c2cand c2ctx := by
  have h2 : validateClaimed c2cand c2ctx = ⟨true, 100, strL "ok"⟩ := by
    unfold validateClaimed
    simp only [← checkRepetition_eq_spec]
    decide
  refine ⟨by decide, h2, ?_⟩
  rw [h2]
  decide

end QualityFilter

/-! Overlay claims. -/


lemma ghostStep_view (g : GhostState) (v : VisView) (op : GhostOp)
    (h1 : g.attached = v.att) (h2 : g.visible = v.vis) (h3 : g.currentText = v.txt) :
    (ghostStep g op).attached = (visViewStep v op).att ∧
    (ghostStep g op).visible = (visViewStep v op).vis ∧
    (ghostStep g op).currentText = (visViewStep v op).txt := by
  cases op with
  | attach =>
      simp [ghostStep, visViewStep, GhostRenderer.attach, h1, h2, h3]
  | detach =>
      simp [ghostStep, visViewStep, GhostRenderer.detach, h1, h2, h3]
  | showText t =>
      simp only [ghostStep, visViewStep, GhostRenderer.showText]
      by_cases ha : g.attached
      · by_cases he : (jsTrim (t.getD [])).isEmpty
        · simp [ha, he, ← h1, h1, h2, h3]
        · simp [ha, he, ← h1, h1, h2, h3]
      · simp [ha, ← h1, h2, h3]
  | showLoading =>
      simp only [ghostStep, visViewStep, GhostRenderer.showLoading]
      by_cases ha : g.attached
      · simp [ha, ← h1, h2, h3]
      · simp [ha, ← h1, h2, h3]
  | hide =>
      simp only [ghostStep, visViewStep, GhostRenderer.hide]
      by_cases ha : g.attached
      · by_cases hv : g.visible
        · simp [ha, hv, ← h1, ← h2, h3]
        · simp [ha, hv, ← h1, ← h2, h3]
      · simp [ha, ← h1, ← h2, h3]
  | accept =>
      simp only [ghostStep, visViewStep, GhostRenderer.accept]
      by_cases ha : g.attached
      · simp [ha, ← h1, h2, h3]
      · simp [ha, ← h1, h2, h3]
  | fireFadeIn =>
      simp only [ghostStep, visViewStep, GhostRenderer.fireFadeIn]
      by_cases hp : g.pendingFadeIn
      · by_cases ha : g.attached <;> simp [hp, ha, ← h1, h2, h3]
      · simp [hp, ← h1, h2, h3]
  | fireAcceptCleanup =>
      simp only [ghostStep, visViewStep, GhostRenderer.fireAcceptCleanup]
      by_cases hp : g.pendingAcceptCleanup
      · by_cases ha : g.attached <;> simp [hp, ha, ← h1, h2, h3]
      · simp [hp, ← h1, h2, h3]

lemma ghostRun_view : ∀ (ops : List GhostOp) (g : GhostState) (v : VisView),
    g.attached = v.att → g.visible = v.vis → g.currentText = v.txt →
    (ghostRun g ops).attached = (visViewRun v ops).att ∧
    (ghostRun g ops).visible = (visViewRun v ops).vis ∧
    (ghostRun g ops).currentText = (visViewRun v ops).txt := by
  intro ops
  induction ops with
  | nil => intro g v h1 h2 h3; exact ⟨h1, h2, h3⟩
  | cons op rest ih =>
      intro g v h1 h2 h3
      have hstep := ghostStep_view g v op h1 h2 h3
      exact ih (ghostStep g op) (visViewStep v op) hstep.1 hstep.2.1 hstep.2.2

/-- C6 (amended): after any sequence of overlay operations, `isVisible()` is
the visibility flag of the amended claim — true exactly after an effective
`show` or `showLoading` not yet followed by an effective `hide` or `accept`
(in particular it is TRUE in the loading state), and `getText()` is the
sanitized candidate of the last effective `show` not yet cleared by an
effective `hide` (in particular it is unchanged by `showLoading` and by
`accept`).  Amendment forced by the counterexample: the original claim said
`isVisible` is false while loading and that `getText` is the currently
displayed candidate. -/
theorem C6_visibility_and_text :
    ∀ ops : List GhostOp,
      GhostRenderer.isVisible (ghostRun GhostState.init ops) =
        (visViewRun ⟨false, false, []⟩ ops).vis ∧
      GhostRenderer.getText (ghostRun GhostState.init ops) =
        (visViewRun ⟨false, false, []⟩ ops).txt := by
  intro ops
  have h := ghostRun_view ops GhostState.init ⟨false, false, []⟩ rfl rfl rfl
  exact ⟨h.2.1, h.2.2⟩

/-- C6 (counterexample): after `attach(); showLoading()` the overlay is in
the loading state displaying no candidate (`elText` empty, loading class
set), yet `isVisible()` returns `true` — the claim asserts it returns
`false` while loading.  Moreover after `attach(); show("hello there");
accept()` (and the accept cleanup timeout) nothing is displayed any more,
yet `getText()` still returns `"hello there"` rather than the empty
string. -/
theorem C6_claim_counterexample :
    (GhostRenderer.isVisible (ghostRun GhostState.init [.attach, .showLoading]) = true ∧
     (ghostRun GhostState.init [.attach, .showLoading]).classLoading = true ∧
     (ghostRun GhostState.init [.attach, .showLoading]).elText = [] ∧
     GhostRenderer.getText (ghostRun GhostState.init [.attach, .showLoading]) = []) ∧
    (GhostRenderer.isVisible (ghostRun GhostState.init
        [.attach, .showText (some (strL "hello there")), .accept, .fireAcceptCleanup]) = false ∧
     (ghostRun GhostState.init
        [.attach, .showText (some (strL "hello there")), .accept, .fireAcceptCleanup]).elText = [] ∧
     GhostRenderer.getText (ghostRun GhostState.init
        [.attach, .showText (some (strL "hello there")), .accept, .fireAcceptCleanup]) =
       strL "hello there") := by
  decide


lemma GhostRenderer.collapseWsGo_true_head (l : List Char) (d : Char)
    (h : (GhostRenderer.collapseWsGo true l).head? = some d) : isJsWs d = false := by
  induction l with
  | nil => simp [GhostRenderer.collapseWsGo] at h
  | cons c rest ih =>
      by_cases hc : isJsWs c
      · rw [show GhostRenderer.collapseWsGo true (c :: rest) = GhostRenderer.collapseWsGo true rest by
            simp [GhostRenderer.collapseWsGo, hc]] at h
        exact ih h
      · rw [show GhostRenderer.collapseWsGo true (c :: rest) = c :: GhostRenderer.collapseWsGo false rest by
            simp [GhostRenderer.collapseWsGo, hc]] at h
        simp at h
        rw [← h]
        exact eq_false_of_ne_true hc

lemma noWsRun_cons {c : Char} {t : List Char} (hc : isJsWs c = false)
    (ht : noWsRun t = true) : noWsRun (c :: t) = true := by
  cases t with
  | nil => simp [noWsRun]
  | cons d r => simp [noWsRun, hc]; exact ht

lemma noWsRun_cons_space {t : List Char}
    (hh : ∀ d, t.head? = some d → isJsWs d = false)
    (ht : noWsRun t = true) : noWsRun (' ' :: t) = true := by
  cases t with
  | nil => simp [noWsRun]
  | cons d r =>
      have hd : isJsWs d = false := hh d rfl
      simp [noWsRun, hd]
      exact ht

lemma GhostRenderer.collapseWsGo_shape (l : List Char) :
    ∀ inWs, (∀ c ∈ GhostRenderer.collapseWsGo inWs l, isJsWs c = true → c = ' ') ∧
      noWsRun (GhostRenderer.collapseWsGo inWs l) = true := by
  induction l with
  | nil => intro inWs; simp [GhostRenderer.collapseWsGo, noWsRun]
  | cons c rest ih =>
      intro inWs
      by_cases hc : isJsWs c
      · cases inWs with
        | true =>
            rw [show GhostRenderer.collapseWsGo true (c :: rest) = GhostRenderer.collapseWsGo true rest by
              simp [GhostRenderer.collapseWsGo, hc]]
            exact ih true
        | false =>
            rw [show GhostRenderer.collapseWsGo false (c :: rest) = ' ' :: GhostRenderer.collapseWsGo true rest by
              simp [GhostRenderer.collapseWsGo, hc]]
            refine ⟨?_, ?_⟩
            · intro d hd hws
              rcases List.mem_cons.mp hd with h | h
              · exact h
              · exact (ih true).1 d h hws
            · exact noWsRun_cons_space (fun d hd => GhostRenderer.collapseWsGo_true_head rest d hd)
                (ih true).2
      · rw [show GhostRenderer.collapseWsGo inWs (c :: rest) = c :: GhostRenderer.collapseWsGo false rest by
          cases inWs <;> simp [GhostRenderer.collapseWsGo, hc]]
        refine ⟨?_, ?_⟩
        · intro d hd hws
          rcases List.mem_cons.mp hd with h | h
          · exfalso; rw [h] at hws; exact hc (by simpa using hws)
          · exact (ih false).1 d h hws
        · exact noWsRun_cons (eq_false_of_ne_true hc) (ih false).2

lemma noWsRun_tail {c : Char} {t : List Char} (h : noWsRun (c :: t) = true) :
    noWsRun t = true := by
  cases t with
  | nil => simp [noWsRun]
  | cons d r =>
      have h' : (!(isJsWs c && isJsWs d) && noWsRun (d :: r)) = true := h
      exact ((Bool.and_eq_true _ _).mp h').2

lemma noWsRun_dropWhile (p : Char → Bool) :
    ∀ t : List Char, noWsRun t = true → noWsRun (t.dropWhile p) = true := by
  intro t
  induction t with
  | nil => intro h; simpa using h
  | cons c r ih =>
      intro h
      by_cases hp : p c
      · rw [List.dropWhile_cons_of_pos hp]
        exact ih (noWsRun_tail h)
      · rw [List.dropWhile_cons_of_neg hp]
        exact h

lemma mem_dropWhile {p : Char → Bool} {t : List Char} {c : Char}
    (h : c ∈ t.dropWhile p) : c ∈ t := by
  induction t with
  | nil => simpa using h
  | cons a r ih =>
      by_cases hp : p a
      · rw [List.dropWhile_cons_of_pos hp] at h
        exact List.mem_cons_of_mem a (ih h)
      · rw [List.dropWhile_cons_of_neg hp] at h
        exact h

/-- The sanitization of `show` produces a string with no newline, no
whitespace run, and no leading whitespace. -/
lemma sanitize_shape (u : List Char) :
    noNewline (GhostRenderer.sanitize u) = true ∧
    noWsRun (GhostRenderer.sanitize u) = true ∧
    noLeadWs (GhostRenderer.sanitize u) = true := by
  have hQ := GhostRenderer.collapseWsGo_shape (GhostRenderer.collapseNl u) false
  have hmem : ∀ c ∈ GhostRenderer.sanitize u, isJsWs c = true → c = ' ' := by
    intro c hcmem hws
    exact hQ.1 c (mem_dropWhile hcmem) hws
  refine ⟨?_, ?_, ?_⟩
  · rw [noNewline, Bool.not_eq_true']
    rw [List.any_eq_false]
    intro c hc
    intro hceq
    have : c = '\n' := by simpa using hceq
    subst this
    have := hmem '\n' hc (by decide)
    exact absurd this (by decide)
  · exact noWsRun_dropWhile isJsWs _ hQ.2
  · rw [noLeadWs]
    unfold GhostRenderer.sanitize jsTrimStart
    cases hh : (List.dropWhile isJsWs (GhostRenderer.collapseWs (GhostRenderer.collapseNl u))).head? with
    | none => rfl
    | some d =>
        have : List.dropWhile isJsWs (GhostRenderer.collapseWs (GhostRenderer.collapseNl u)) =
            d :: (List.dropWhile isJsWs (GhostRenderer.collapseWs (GhostRenderer.collapseNl u))).tail := by
          cases hcons : List.dropWhile isJsWs (GhostRenderer.collapseWs (GhostRenderer.collapseNl u)) with
          | nil => rw [hcons] at hh; simp at hh
          | cons a r => rw [hcons] at hh; simp at hh; simp [hh]
        have hd := dropWhile_head_false isJsWs
          (GhostRenderer.collapseWs (GhostRenderer.collapseNl u)) d _ this
        simp [hd]


lemma ghostStep_text_shape (g : GhostState) (op : GhostOp)
    (h : sanitizedShape g.currentText) :
    sanitizedShape (ghostStep g op).currentText := by
  cases op with
  | showText t =>
      simp only [ghostStep, GhostRenderer.showText]
      by_cases hg : (!g.attached || (jsTrim (t.getD [])).isEmpty) = true
      · rw [if_pos hg]; exact h
      · rw [if_neg hg]
        have := sanitize_shape (t.getD [])
        exact ⟨this.1, this.2.1, this.2.2⟩
  | hide =>
      simp only [ghostStep, GhostRenderer.hide]
      by_cases hg : (!g.attached || !g.visible) = true
      · rw [if_pos hg]; exact h
      · rw [if_neg hg]
        exact ⟨rfl, rfl, rfl⟩
  | attach => exact h
  | detach => exact h
  | showLoading =>
      simp only [ghostStep, GhostRenderer.showLoading]
      by_cases hg : (!g.attached) = true
      · rw [if_pos hg]; exact h
      · rw [if_neg hg]; exact h
  | accept =>
      simp only [ghostStep, GhostRenderer.accept]
      by_cases hg : (!g.attached) = true
      · rw [if_pos hg]; exact h
      · rw [if_neg hg]; exact h
  | fireFadeIn =>
      simp only [ghostStep, GhostRenderer.fireFadeIn]
      by_cases hp : g.pendingFadeIn = true
      · rw [if_pos hp]
        by_cases ha : g.attached = true
        · rw [if_pos ha]; exact h
        · rw [if_neg ha]; exact h
      · rw [if_neg hp]; exact h
  | fireAcceptCleanup =>
      simp only [ghostStep, GhostRenderer.fireAcceptCleanup]
      by_cases hp : g.pendingAcceptCleanup = true
      · rw [if_pos hp]
        by_cases ha : g.attached = true
        · rw [if_pos ha]; exact h
        · rw [if_neg ha]; exact h
      · rw [if_neg hp]; exact h

lemma ghostRun_text_shape : ∀ (ops : List GhostOp) (g : GhostState),
    sanitizedShape g.currentText → sanitizedShape (ghostRun g ops).currentText := by
  intro ops
  induction ops with
  | nil => intro g h; exact h
  | cons op rest ih =>
      intro g h
      exact ih (ghostStep g op) (ghostStep_text_shape g op h)

/-- C9: after any sequence of overlay operations from the initial state,
`getText()` is either empty or a sanitized string: it contains no newline
character, no run of two or more consecutive whitespace characters, and no
leading whitespace (because `show` collapses newline and whitespace runs to
single spaces and strips leading whitespace before storing the candidate,
`hide` clears it, and no other operation stores a different text). -/
theorem C9_getText_sanitized :
    ∀ ops : List GhostOp,
      GhostRenderer.getText (ghostRun GhostState.init ops) = [] ∨
        (noNewline (GhostRenderer.getText (ghostRun GhostState.init ops)) = true ∧
         noWsRun (GhostRenderer.getText (ghostRun GhostState.init ops)) = true ∧
         noLeadWs (GhostRenderer.getText (ghostRun GhostState.init ops)) = true) := by
  intro ops
  exact Or.inr (ghostRun_text_shape ops GhostState.init ⟨by decide, by decide, by decide⟩)

/-- C10: calling `show` with `null`/`undefined` (modelled by `none`), the
empty string, or a whitespace-only string is a complete no-op: the entire
overlay state — visibility, displayed text, stored candidate and the
position-tracking loop — is returned unchanged. -/
theorem C10_show_blank_noop (g : GhostState) (t : Option (List Char))
    (h : t = none ∨ jsTrim (t.getD []) = []) :
    GhostRenderer.showText t g = g := by
  have he : (jsTrim (t.getD [])).isEmpty = true := by
    rcases h with h | h
    · subst h; decide
    · rw [h]; rfl
  unfold GhostRenderer.showText
  rw [he]
  simp

/-- C10 (witness): on the concrete attached overlay state showing
`"hello world"`, a `show` call with a whitespace-only argument leaves the
state untouched. -/
theorem C10_show_blank_noop_witness :
    GhostRenderer.showText (some (strL " \t  "))
        (ghostRun GhostState.init [.attach, .showText (some (strL "hello world"))]) =
      ghostRun GhostState.init [.attach, .showText (some (strL "hello world"))] :=
  C10_show_blank_noop _ _ (Or.inr (by decide))

/-! Controller claims. -/

namespace SuggestionController

lemma processResponse_none (s : CtrlState) (i : Nat) (r : Except (List Char) (List Char))
    (hp : s.pending.get? i = none) : processResponse s i r = s := by
  unfold processResponse
  rw [hp]

lemma processResponse_stale (s : CtrlState) (i : Nat) (p : Pending)
    (r : Except (List Char) (List Char))
    (hp : s.pending.get? i = some p) (hg : s.generation ≠ p.gen) :
    processResponse s i r = { s with pending := s.pending.eraseIdx i } := by
  unfold processResponse
  rw [hp]
  cases r with
  | error e => simp [hg]
  | ok v => simp [hg]

lemma processResponse_fresh_error (s : CtrlState) (i : Nat) (p : Pending) (e : List Char)
    (hp : s.pending.get? i = some p) (hg : s.generation = p.gen) :
    processResponse s i (.error e) =
      { s with pending := s.pending.eraseIdx i,
               ghost := GhostRenderer.hide s.ghost,
               warnings := if e = strL "disabled" then s.warnings
                           else s.warnings ++ [e] } := by
  unfold processResponse
  rw [hp]
  simp [hg]

lemma processResponse_fresh_empty (s : CtrlState) (i : Nat) (p : Pending)
    (hp : s.pending.get? i = some p) (hg : s.generation = p.gen) :
    processResponse s i (.ok []) = { s with pending := s.pending.eraseIdx i } := by
  unfold processResponse
  rw [hp]
  simp [hg]

lemma processResponse_fresh_valid (s : CtrlState) (i : Nat) (p : Pending) (v : List Char)
    (hp : s.pending.get? i = some p) (hg : s.generation = p.gen) (hv : v ≠ [])
    (hval : (QualityFilter.validate v p.ctx).valid = true) :
    processResponse s i (.ok v) =
      { s with pending := s.pending.eraseIdx i,
               ghost := GhostRenderer.showText (some v) s.ghost } := by
  unfold processResponse
  rw [hp]
  have hvE : v.isEmpty = false := by
    cases v with
    | nil => exact absurd rfl hv
    | cons a t => rfl
  simp [hg, hvE, hval]

lemma processResponse_fresh_invalid_first (s : CtrlState) (i : Nat) (p : Pending)
    (v : List Char)
    (hp : s.pending.get? i = some p) (hg : s.generation = p.gen) (hv : v ≠ [])
    (hval : (QualityFilter.validate v p.ctx).valid = false) (hst : p.stage = .first) :
    processResponse s i (.ok v) =
      { s with pending := s.pending.eraseIdx i ++
                 [⟨p.gen, p.ctx, .retry, p.userPrompt ++ retryNote⟩] } := by
  unfold processResponse
  rw [hp]
  have hvE : v.isEmpty = false := by
    cases v with
    | nil => exact absurd rfl hv
    | cons a t => rfl
  simp [hg, hvE, hval, hst]

lemma processResponse_fresh_invalid_retry (s : CtrlState) (i : Nat) (p : Pending)
    (v : List Char)
    (hp : s.pending.get? i = some p) (hg : s.generation = p.gen) (hv : v ≠ [])
    (hval : (QualityFilter.validate v p.ctx).valid = false) (hst : p.stage = .retry) :
    processResponse s i (.ok v) =
      { s with pending := s.pending.eraseIdx i,
               ghost := GhostRenderer.hide s.ghost } := by
  unfold processResponse
  rw [hp]
  have hvE : v.isEmpty = false := by
    cases v with
    | nil => exact absurd rfl hv
    | cons a t => rfl
  simp [hg, hvE, hval, hst]

lemma processResponse_generation (s : CtrlState) (i : Nat)
    (r : Except (List Char) (List Char)) :
    (processResponse s i r).generation = s.generation := by
  unfold processResponse
  cases hp : s.pending.get? i with
  | none => rfl
  | some p =>
      cases r with
      | error e =>
          by_cases hg : s.generation ≠ p.gen <;> simp [hg]
      | ok v =>
          by_cases hg : s.generation ≠ p.gen
          · simp [hg]
          · by_cases hv : v.isEmpty
            · simp [hg, hv]
            · by_cases hval : (QualityFilter.validate v p.ctx).valid
              · simp [hg, hv, hval]
              · cases hst : p.stage <;> simp [hg, hv, hval, hst]

/-- Helper characterizing exactly when and by how much one event changes the
generation counter. -/
lemma step_generation_eq (s : CtrlState) (e : Ev) :
    (step s e).generation = s.generation + (if genIncrements s e then 1 else 0) := by
  cases e with
  | surfaceChange =>
      by_cases h : s.connectedObservers = 0 <;> simp [step, genIncrements, h]
  | debounceFire octx =>
      by_cases h : s.debounceArmed
      · cases octx with
        | none => simp [step, genIncrements, h]
        | some c =>
            by_cases hl : c.activeSentence.length < 10
            · have : ¬ (10 ≤ c.activeSentence.length) := by omega
              simp [step, genIncrements, h, hl, this]
            · have : 10 ≤ c.activeSentence.length := by omega
              simp [step, genIncrements, h, hl, this]
      · simp [step, genIncrements, h]
  | response i r =>
      have := processResponse_generation s i r
      simp [step, genIncrements, this]
  | dismiss => simp [step, genIncrements]
  | accept =>
      by_cases h : s.ghost.currentText.isEmpty <;> simp [step, genIncrements, h]
  | stop => simp [step, genIncrements]
  | start => simp [step, genIncrements]

lemma step_generation_le (s : CtrlState) (e : Ev) :
    s.generation ≤ (step s e).generation := by
  rw [step_generation_eq]
  by_cases h : genIncrements s e <;> simp [h]

lemma runEvents_generation_le : ∀ (evs : List Ev) (s : CtrlState),
    s.generation ≤ (runEvents s evs).generation := by
  intro evs
  induction evs with
  | nil => intro s; exact Nat.le_refl _
  | cons e rest ih =>
      intro s
      exact Nat.le_trans (step_generation_le s e) (ih (step s e))

/-- C7 (amended): the generation counter is incremented (by exactly one) on
exactly these events: a surface-change observer callback (while an observer
is connected), an explicit dismiss, an explicit accept — via its internal
dismiss, hence only when a suggestion text is present — a service stop, and
additionally a debounce fire that passes extraction (a context whose
`activeSentence` has at least 10 characters), where `_run` executes
`myGen = ++this._generation`; no other event changes it.  Amendment forced
by the counterexample: the original claim omitted the debounce-fire
increment (and the presence condition on accept). -/
theorem C7_generation_increment_exactly :
    ∀ (s : CtrlState) (e : Ev),
      (step s e).generation = s.generation + (if genIncrements s e then 1 else 0) :=
  step_generation_eq



/-- C7 (counterexample): a debounce fire with a successful extraction — an
event that is none of the four listed in the claim (surface change, dismiss,
accept, stop) — increments the generation counter. -/
theorem C7_claim_counterexample :
    (step s7 (.debounceFire (some wctx))).generation = s7.generation + 1 := by
  decide

/-- C8: when a completion request fails with an error while its captured
generation is still current, the overlay is hidden and a warning is logged
unless the error message is exactly `"disabled"`, in which case nothing is
logged; the only other effect is that the request leaves the in-flight set.
(The `try`/`catch` of `_fetchSuggestion` makes the continuation a total
function — the model's `step` — so no exception propagates to the caller of
`start`/`dismiss`/`stop`.) -/
theorem C8_fresh_error_hides_and_logs :
    ∀ (s : CtrlState) (i : Nat) (p : Pending) (e : List Char),
      s.pending.get? i = some p → s.generation = p.gen →
      step s (.response i (.error e)) =
        { s with pending := s.pending.eraseIdx i,
                 ghost := GhostRenderer.hide s.ghost,
                 warnings := if e = strL "disabled" then s.warnings
                             else s.warnings ++ [e] } := by
  intro s i p e hp hg
  exact processResponse_fresh_error s i p e hp hg



/-- C8 (witness): at the concrete fresh state, a `"disabled"` error hides
the overlay and logs nothing, while a network error logs a warning. -/
theorem C8_fresh_error_witness :
    step sFresh (.response 0 (.error (strL "disabled"))) =
      { sFresh with pending := [],
                    ghost := GhostRenderer.hide sFresh.ghost,
                    warnings := if strL "disabled" = strL "disabled" then sFresh.warnings
                                else sFresh.warnings ++ [strL "disabled"] } ∧
    step sFresh (.response 0 (.error (strL "HTTP 500"))) =
      { sFresh with pending := [],
                    ghost := GhostRenderer.hide sFresh.ghost,
                    warnings := if strL "HTTP 500" = strL "disabled" then sFresh.warnings
                                else sFresh.warnings ++ [strL "HTTP 500"] } :=
  ⟨C8_fresh_error_hides_and_logs sFresh 0 pend1 (strL "disabled") rfl rfl,
   C8_fresh_error_hides_and_logs sFresh 0 pend1 (strL "HTTP 500") rfl rfl⟩

/-- C1 (amended): (a) the generation counter never decreases under any event
sequence; (b) a response whose captured generation differs from the live
generation at processing time is dropped with no overlay mutation and no
effect at all beyond leaving the in-flight set; (c) a current-generation
response with an empty suggestion string is likewise dropped without being
applied; (d) a current-generation response with a non-empty suggestion is
applied: the overlay transition is exactly the one determined by the quality
filter on the response (show when valid, untouched while the first-attempt
retry is issued, hidden on a rejected retry).  Amendment forced by the
counterexample: a response is applied iff the generations agree AND the
suggestion is non-empty — not iff the generations agree alone. -/
theorem C1_generation_and_staleness :
    (∀ (s : CtrlState) (evs : List Ev),
        s.generation ≤ (runEvents s evs).generation) ∧
    (∀ (s : CtrlState) (i : Nat) (p : Pending) (r : Except (List Char) (List Char)),
        s.pending.get? i = some p → s.generation ≠ p.gen →
        step s (.response i r) = { s with pending := s.pending.eraseIdx i }) ∧
    (∀ (s : CtrlState) (i : Nat) (p : Pending),
        s.pending.get? i = some p → s.generation = p.gen →
        step s (.response i (.ok [])) = { s with pending := s.pending.eraseIdx i }) ∧
    (∀ (s : CtrlState) (i : Nat) (p : Pending) (v : List Char),
        s.pending.get? i = some p → s.generation = p.gen → v ≠ [] →
        (step s (.response i (.ok v))).ghost =
          (if (QualityFilter.validate v p.ctx).valid then
             GhostRenderer.showText (some v) s.ghost
           else if p.stage = .first then s.ghost
           else GhostRenderer.hide s.ghost)) := by
  refine ⟨fun s evs => runEvents_generation_le evs s,
          fun s i p r hp hg => processResponse_stale s i p r hp hg,
          fun s i p hp hg => processResponse_fresh_empty s i p hp hg,
          ?_⟩
  intro s i p v hp hg hv
  by_cases hval : (QualityFilter.validate v p.ctx).valid
  · have h := processResponse_fresh_valid s i p v hp hg hv hval
    show (processResponse s i (.ok v)).ghost = _
    rw [h, if_pos hval]
  · have hvalF : (QualityFilter.validate v p.ctx).valid = false := by
      simpa using hval
    cases hst : p.stage with
    | first =>
        have h := processResponse_fresh_invalid_first s i p v hp hg hv hvalF hst
        show (processResponse s i (.ok v)).ghost = _
        rw [h]
        simp [hvalF]
    | retry =>
        have h := processResponse_fresh_invalid_retry s i p v hp hg hv hvalF hst
        show (processResponse s i (.ok v)).ghost = _
        rw [h]
        simp [hvalF]



/-- C1 (witness): the four parts of the theorem at concrete inputs — a
concrete run never lowers the generation; a stale response at `sStale` is
dropped wholesale; a fresh empty response at `sFresh` is dropped; a fresh
non-empty response is applied through the filter. -/
theorem C1_generation_and_staleness_witness :
    (CtrlState.init.generation ≤
        (runEvents CtrlState.init [.start, .surfaceChange, .debounceFire (some wctx)]).generation) ∧
    (step sStale (.response 0 (.ok (strL "some late text"))) =
        { sStale with pending := [] }) ∧
    (step sFresh (.response 0 (.ok [])) = { sFresh with pending := [] }) ∧
    ((step sFresh (.response 0 (.ok vOk))).ghost =
        (if (QualityFilter.validate vOk pend1.ctx).valid then
           GhostRenderer.showText (some vOk) sFresh.ghost
         else if pend1.stage = .first then sFresh.ghost
         else GhostRenderer.hide sFresh.ghost)) :=
  ⟨C1_generation_and_staleness.1 CtrlState.init _,
   C1_generation_and_staleness.2.1 sStale 0 pend1 _ rfl (by decide),
   C1_generation_and_staleness.2.2.1 sFresh 0 pend1 rfl rfl,
   C1_generation_and_staleness.2.2.2 sFresh 0 pend1 vOk rfl rfl (by decide)⟩

/-- C1 (counterexample): at `sFresh` the captured generation of the pending
request equals the live generation, yet the arriving response — the empty
suggestion string, an output the prompt explicitly allows — is NOT applied:
the state is unchanged except that the request leaves the in-flight set, and
in particular the overlay (still in its loading state) is not mutated.  This
falsifies "applied if and only if the generation captured when its request
was issued equals the live generation". -/
theorem C1_claim_counterexample :
    sFresh.generation = pend1.gen ∧
    step sFresh (.response 0 (.ok [])) = { sFresh with pending := [] } ∧
    (step sFresh (.response 0 (.ok []))).ghost = sFresh.ghost := by
  have h2 := processResponse_fresh_empty sFresh 0 pend1 rfl rfl
  exact ⟨rfl, h2, by rw [show step sFresh (.response 0 (.ok [])) = _ from h2]⟩

/-- C3 (amended): for a first response arriving at its still-current
generation with a NON-EMPTY suggestion string, a filter rejection issues
exactly one second request whose user prompt is the original user prompt
with the rejection note appended; a non-stale non-empty retry response that
is again rejected hides the overlay; and a non-stale non-empty response that
the filter accepts (at either stage) is shown.  Amendment forced by the
counterexample: an empty first response never reaches the filter — it is
discarded by `suggestion || null` and the cycle ends with no retry (and the
overlay left in its loading state). -/
theorem C3_retry_once_on_rejection :
    (∀ (s : CtrlState) (i : Nat) (p : Pending) (v : List Char),
        s.pending.get? i = some p → s.generation = p.gen → v ≠ [] →
        (QualityFilter.validate v p.ctx).valid = false → p.stage = .first →
        step s (.response i (.ok v)) =
          { s with pending := s.pending.eraseIdx i ++
                     [⟨p.gen, p.ctx, .retry, p.userPrompt ++ retryNote⟩] }) ∧
    (∀ (s : CtrlState) (i : Nat) (p : Pending) (v : List Char),
        s.pending.get? i = some p → s.generation = p.gen → v ≠ [] →
        (QualityFilter.validate v p.ctx).valid = false → p.stage = .retry →
        step s (.response i (.ok v)) =
          { s with pending := s.pending.eraseIdx i,
                   ghost := GhostRenderer.hide s.ghost }) ∧
    (∀ (s : CtrlState) (i : Nat) (p : Pending) (v : List Char),
        s.pending.get? i = some p → s.generation = p.gen → v ≠ [] →
        (QualityFilter.validate v p.ctx).valid = true →
        step s (.response i (.ok v)) =
          { s with pending := s.pending.eraseIdx i,
                   ghost := GhostRenderer.showText (some v) s.ghost }) :=
  ⟨fun s i p v hp hg hv hval hst =>
      processResponse_fresh_invalid_first s i p v hp hg hv hval hst,
   fun s i p v hp hg hv hval hst =>
      processResponse_fresh_invalid_retry s i p v hp hg hv hval hst,
   fun s i p v hp hg hv hval =>
      processResponse_fresh_valid s i p v hp hg hv hval⟩




/-- C3 (witness): at the concrete fresh states — a rejected first response
issues exactly the one retry with the amended prompt, a rejected retry
response hides the overlay, and an accepted response is shown. -/
theorem C3_retry_once_on_rejection_witness :
    (step sFresh (.response 0 (.ok vRej)) =
        { sFresh with pending := [⟨1, wctx, .retry, strL "PROMPT" ++ retryNote⟩] }) ∧
    (step sFresh2 (.response 0 (.ok vRej)) =
        { sFresh2 with pending := [], ghost := GhostRenderer.hide sFresh2.ghost }) ∧
    (step sFresh (.response 0 (.ok vOk)) =
        { sFresh with pending := [],
                      ghost := GhostRenderer.showText (some vOk) sFresh.ghost }) :=
  ⟨C3_retry_once_on_rejection.1 sFresh 0 pend1 vRej rfl rfl (by decide) (by decide) rfl,
   C3_retry_once_on_rejection.2.1 sFresh2 0 pend2 vRej rfl rfl (by decide) (by decide) rfl,
   C3_retry_once_on_rejection.2.2 sFresh 0 pend1 vOk rfl rfl (by decide) (by decide)⟩

/-- C3 (counterexample): the empty candidate IS a filter rejection (reason
`empty`), yet a fresh empty first response triggers NO second request — the
pending set is left empty and the overlay is not touched — because
`_fetchSuggestion` discards falsy suggestions before the filter ever runs.
This falsifies "for any rejection reason, including an empty candidate, the
pipeline issues exactly one second request". -/
theorem C3_claim_counterexample :
    (QualityFilter.validate [] pend1.ctx).valid = false ∧
    (QualityFilter.validate [] pend1.ctx).reason = strL "empty" ∧
    step sFresh (.response 0 (.ok [])) = { sFresh with pending := [] } ∧
    (step sFresh (.response 0 (.ok []))).pending = [] :=
  ⟨by decide, by decide, processResponse_fresh_empty sFresh 0 pend1 rfl rfl,
   by rw [show step sFresh (.response 0 (.ok [])) = _ from
        processResponse_fresh_empty sFresh 0 pend1 rfl rfl]; rfl⟩

end SuggestionController

/-! Context-extraction claims. -/

lemma int_fdiv_eq_floor (a b : Int) (hb : 0 < b) :
    Int.fdiv a b = ⌊(a : ℚ) / (b : ℚ)⌋ := by
  have h1 : ⌊((a : ℚ) / ((b.toNat : ℕ) : ℚ))⌋ = a / ((b.toNat : ℕ) : ℤ) :=
    Rat.floor_intCast_div_natCast a b.toNat
  have hbn : ((b.toNat : ℕ) : ℤ) = b := Int.toNat_of_nonneg hb.le
  have hbq : ((b.toNat : ℕ) : ℚ) = (b : ℚ) := by
    rw [show ((b.toNat : ℕ) : ℚ) = (((b.toNat : ℕ) : ℤ) : ℚ) by push_cast; ring, hbn]
  rw [hbq, hbn] at h1
  rw [h1, Int.fdiv_eq_ediv _ hb.le]

/-- Sanity check tying the integer implementation of the truncation count to
the rational definition of `Math.round`: for a positive denominator,
`jsRoundRatio num den` is exactly `Math.round(num / den)`. -/
lemma jsRoundRatio_eq_jsRound (num den : Int) (h : 0 < den) :
    jsRoundRatio num den = jsRound ((num : ℚ) / (den : ℚ)) := by
  unfold jsRoundRatio jsRound
  rw [if_pos h.le, int_fdiv_eq_floor _ _ (by positivity)]
  congr 1
  have hd : (den : ℚ) ≠ 0 := by exact_mod_cast h.ne.symm
  field_simp
  ring

namespace ContextManager


/-- C4 (code bug): with the cursor on the second line at `x = 50`, the first
line lies entirely above the cursor's line (its bottom, 30, is above the
second line's top, 40), so the claim — and the source's own comment
`// Lines fully above cursor line` — require it to be included in full
(`"first line "`).  Instead the code tests `lineRect.bottom < cursorX - 80`,
comparing the line's bottom (a vertical coordinate) against the cursor's
HORIZONTAL position, the test fails (30 ≮ −30), and the first line is
span-walked against the cursor's x like the cursor line itself, contributing
only the ratio-truncated `"fir"`.  The function returns `"firsec"` (the
cursor line correctly contributes `"sec"`) instead of the specified
`"first line sec"`. -/
theorem C4_line_above_cursor_truncated :
    textBeforeCursorInPara c4para 50 = strL "firsec" ∧
      textBeforeCursorInPara c4para 50 ≠ strL "first line " ++ strL "sec" := by
  exact ⟨by decide, by decide⟩



end ContextManager

lemma getLast?_mem' {l : List Char} {c : Char} (h : l.getLast? = some c) : c ∈ l := by
  have hmem : c ∈ l.getLast? := by rw [h]; rfl
  obtain ⟨hl, hx⟩ := List.mem_getLast?_eq_getLast hmem
  rw [hx]
  exact List.getLast_mem hl

lemma suffix_getLast? {l t : List Char} (hs : l <:+ t) (hl : l ≠ []) :
    t.getLast? = l.getLast? := by
  obtain ⟨pre, rfl⟩ := hs
  exact List.getLast?_append_of_ne_nil pre hl

lemma head?_reverse' (m : List Char) : m.reverse.head? = m.getLast? := by
  have h := List.getLast?_reverse m.reverse
  rw [List.reverse_reverse] at h
  exact h.symm

lemma head?_eq_cons {l : List Char} {c : Char} (h : l.head? = some c) :
    ∃ r, l = c :: r := by
  cases l with
  | nil => simp at h
  | cons a r =>
      simp at h
      exact ⟨r, by rw [h]⟩

/-- The last character of a trimmed string is never whitespace. -/
lemma jsTrim_last_not_ws (x : List Char) :
    ∀ c, (jsTrim x).getLast? = some c → isJsWs c = false := by
  intro c h
  unfold jsTrim jsTrimEnd at h
  rw [List.getLast?_reverse] at h
  obtain ⟨r, hr⟩ := head?_eq_cons h
  exact dropWhile_head_false isJsWs _ c r hr

lemma trimStart_ne_nil (t : List Char) (ht : t ≠ [])
    (hlast : ∀ c, t.getLast? = some c → isJsWs c = false) : jsTrimStart t ≠ [] := by
  intro hnil
  unfold jsTrimStart at hnil
  rw [List.dropWhile_eq_nil_iff] at hnil
  cases hg : t.getLast? with
  | none => exact ht (by rwa [List.getLast?_eq_none_iff] at hg)
  | some c =>
      have hws := hnil c (getLast?_mem' hg)
      rw [hlast c hg] at hws
      exact Bool.false_ne_true hws

lemma trimEnd_eq_self (m : List Char) (hm : m ≠ [])
    (hlast : ∀ c, m.getLast? = some c → isJsWs c = false) : jsTrimEnd m = m := by
  unfold jsTrimEnd
  cases hr : m.reverse with
  | nil =>
      exact absurd (by simpa using congrArg List.reverse hr) hm
  | cons c r =>
      have hhead : m.getLast? = some c := by
        rw [← head?_reverse' m, hr]; rfl
      have hcws : isJsWs c = false := hlast c hhead
      rw [List.dropWhile_cons_of_neg (by simp [hcws]), ← hr, List.reverse_reverse]

/-- A nonempty string whose last character is not whitespace trims to a
nonempty string. -/
lemma jsTrim_ne_nil (t : List Char) (ht : t ≠ [])
    (hlast : ∀ c, t.getLast? = some c → isJsWs c = false) : jsTrim t ≠ [] := by
  have h1 : jsTrimStart t ≠ [] := trimStart_ne_nil t ht hlast
  have h2 : (jsTrimStart t).getLast? = t.getLast? :=
    (suffix_getLast? (List.dropWhile_suffix isJsWs) h1).symm
  have h3 : ∀ c, (jsTrimStart t).getLast? = some c → isJsWs c = false := by
    intro c hc; exact hlast c (h2 ▸ hc)
  unfold jsTrim
  rw [trimEnd_eq_self (jsTrimStart t) h1 h3]
  exact h1

namespace ContextManager

lemma capOk_eq {l cap : List Char} (h : capOk l = some cap) : cap = l := by
  unfold capOk at h
  split at h
  · cases h; rfl
  · cases h

/-- A successful boundary attempt returns a suffix of its argument, and an
empty capture forces the argument — hence the scanned text — to end in a
whitespace character. -/
lemma tryBoundary_good {l cap : List Char} (h : tryBoundary l = some cap) :
    cap <:+ l ∧ (cap = [] → ∃ d, l.getLast? = some d ∧ isJsWs d = true) := by
  cases l with
  | nil => simp [tryBoundary] at h
  | cons c rest =>
      simp only [tryBoundary] at h
      by_cases h1 : (c == '.' || c == '!' || c == '?') = true
      · rw [if_pos h1] at h
        by_cases h2 : (rest.takeWhile isJsWs).isEmpty
        · rw [if_pos h2] at h; cases h
        · rw [if_neg h2] at h
          have hcap := capOk_eq h
          subst hcap
          refine ⟨(List.drop_suffix _ _).trans (List.suffix_cons c rest), ?_⟩
          intro hnil
          have hk : rest.length ≤ (rest.takeWhile isJsWs).length := by
            have hlen := congrArg List.length hnil
            simp [List.length_drop] at hlen
            omega
          have hpre := List.takeWhile_prefix (p := isJsWs) (l := rest)
          have hlen : (rest.takeWhile isJsWs).length = rest.length :=
            le_antisymm hpre.length_le hk
          have heq : rest.takeWhile isJsWs = rest := hpre.eq_of_length hlen
          have hrne : rest ≠ [] := by
            intro hr
            rw [hr] at h2
            exact h2 rfl
          cases hgl : rest.getLast? with
          | none => exact absurd (by rwa [List.getLast?_eq_none_iff] at hgl) hrne
          | some d =>
              refine ⟨d, ?_, ?_⟩
              · rw [show (c :: rest) = [c] ++ rest from rfl,
                    List.getLast?_append_of_ne_nil _ hrne]
                exact hgl
              · have hdm : d ∈ rest.takeWhile isJsWs := by
                  rw [heq]; exact getLast?_mem' hgl
                exact List.mem_takeWhile_imp hdm
      · rw [if_neg h1] at h
        by_cases h3 : (c == '\n') = true
        · rw [if_pos h3] at h
          have hcap := capOk_eq h
          rw [hcap]
          refine ⟨List.suffix_cons c rest, ?_⟩
          intro hnil
          subst hnil
          have hcc : c = '\n' := by simpa using h3
          subst hcc
          exact ⟨'\n', rfl, by decide⟩
        · rw [if_neg h3] at h; cases h

/-- The leftmost regex match captures a suffix of the text, and an empty
capture forces the text to end in whitespace. -/
lemma lastSentenceCapture_good :
    ∀ {t cap : List Char}, lastSentenceCapture t = some cap →
      cap <:+ t ∧ (cap = [] → ∃ d, t.getLast? = some d ∧ isJsWs d = true) := by
  intro t
  induction t with
  | nil => intro cap h; simp [lastSentenceCapture] at h
  | cons c rest ih =>
      intro cap h
      cases htb : tryBoundary (c :: rest) with
      | some cap2 =>
          simp only [lastSentenceCapture, htb] at h
          cases h
          exact tryBoundary_good htb
      | none =>
          simp only [lastSentenceCapture, htb] at h
          have hrest := ih h
          have hrne : rest ≠ [] := by
            intro hr
            rw [hr] at h
            simp [lastSentenceCapture] at h
          refine ⟨hrest.1.trans (List.suffix_cons c rest), ?_⟩
          intro hnil
          obtain ⟨d, hd, hws⟩ := hrest.2 hnil
          refine ⟨d, ?_, hws⟩
          rw [show (c :: rest) = [c] ++ rest from rfl,
              List.getLast?_append_of_ne_nil _ hrne]
          exact hd

/-- On a nonempty text not ending in whitespace (e.g. any trimmed nonempty
text), `_extractActiveSentence` returns a nonempty string. -/
lemma extractActiveSentence_ne_nil (t : List Char) (ht : t ≠ [])
    (hlast : ∀ c, t.getLast? = some c → isJsWs c = false) :
    extractActiveSentence t ≠ [] := by
  unfold extractActiveSentence
  cases hcap : lastSentenceCapture t with
  | none =>
      have hsuf : jsSliceLast t 200 <:+ t := List.drop_suffix _ _
      have hne : jsSliceLast t 200 ≠ [] := by
        intro hnil
        unfold jsSliceLast at hnil
        have hlen := congrArg List.length hnil
        rw [List.length_drop, List.length_nil] at hlen
        have ht' : t.length ≠ 0 := fun h0 => ht (List.length_eq_zero.mp h0)
        omega
      apply jsTrim_ne_nil _ hne
      intro c hc
      have hgl := suffix_getLast? hsuf hne
      rw [← hgl] at hc
      exact hlast c hc
  | some cap =>
      obtain ⟨hsuf, hemp⟩ := lastSentenceCapture_good hcap
      by_cases hcnil : cap = []
      · obtain ⟨d, hd, hws⟩ := hemp hcnil
        rw [hlast d hd] at hws
        exact absurd hws (by simp)
      · apply jsTrim_ne_nil _ hcnil
        intro c hc
        have hgl := suffix_getLast? hsuf hcnil
        rw [← hgl] at hc
        exact hlast c hc

/-- The gathered before-cursor text is a trimmed string. -/
lemma getTextBeforeCursor_fst_trimmed (s : Surface) (cr : Rect)
    (paragraphs : List (List Char)) :
    ∃ x, (getTextBeforeCursor s cr paragraphs).1 = jsTrim x :=
  ⟨_, rfl⟩

/-- C5: `extract` returns `null` exactly when no cursor indicator is
locatable, or the surface contains no non-empty paragraph texts, or the text
gathered before the cursor is shorter than 10 characters; and every returned
`WritingContext` has a non-empty `activeSentence`. -/
theorem C5_extract_contract :
    ∀ s : Surface,
      (extract s = none ↔
        (s.cursor = none ∨ getAllParagraphTexts s = [] ∨ (beforeCursorOf s).length < 10)) ∧
      (∀ ctx, extract s = some ctx → ctx.activeSentence ≠ []) := by
  intro s
  cases hc : s.cursor with
  | none =>
      constructor
      · simp [extract, hc]
      · intro ctx h
        simp [extract, hc] at h
  | some cr =>
      have hbc : beforeCursorOf s = (getTextBeforeCursor s cr (getAllParagraphTexts s)).1 := by
        unfold beforeCursorOf
        rw [hc]
      constructor
      · rw [hbc]
        simp only [extract, hc]
        by_cases hp : (getAllParagraphTexts s).isEmpty
        · rw [if_pos hp]
          rw [List.isEmpty_iff] at hp
          simp [hp]
        · rw [if_neg hp]
          rw [List.isEmpty_iff] at hp
          by_cases hlen :
              ((getTextBeforeCursor s cr (getAllParagraphTexts s)).1.isEmpty
                || decide ((getTextBeforeCursor s cr (getAllParagraphTexts s)).1.length < 10)) = true
          · rw [if_pos hlen]
            constructor
            · intro _
              right; right
              rcases Bool.or_eq_true_iff.mp hlen with he | hd
              · rw [List.isEmpty_iff] at he
                rw [he]
                simp
              · exact of_decide_eq_true hd
            · intro _; rfl
          · rw [if_neg hlen]
            rw [Bool.or_eq_true_iff] at hlen
            push_neg at hlen
            constructor
            · intro h; cases h
            · intro h
              rcases h with h | h | h
              · exact absurd h (by simp)
              · exact absurd h hp
              · exact absurd (decide_eq_true h) hlen.2
      · intro ctx h
        simp only [extract, hc] at h
        by_cases hp : (getAllParagraphTexts s).isEmpty
        · rw [if_pos hp] at h; cases h
        · rw [if_neg hp] at h
          by_cases hlen :
              ((getTextBeforeCursor s cr (getAllParagraphTexts s)).1.isEmpty
                || decide ((getTextBeforeCursor s cr (getAllParagraphTexts s)).1.length < 10)) = true
          · rw [if_pos hlen] at h; cases h
          · rw [if_neg hlen] at h
            rw [Bool.or_eq_true_iff] at hlen
            push_neg at hlen
            have hne : (getTextBeforeCursor s cr (getAllParagraphTexts s)).1 ≠ [] := by
              intro hnil
              exact hlen.1 (by rw [hnil]; rfl)
            obtain ⟨x, hx⟩ := getTextBeforeCursor_fst_trimmed s cr (getAllParagraphTexts s)
            have hlast : ∀ c,
                (getTextBeforeCursor s cr (getAllParagraphTexts s)).1.getLast? = some c →
                  isJsWs c = false := by
              intro c hcl
              exact jsTrim_last_not_ws x c (hx ▸ hcl)
            have hact := extractActiveSentence_ne_nil _ hne hlast
            cases h
            exact hact

/-- C5 (witness): on the concrete surface `sW`, `extract` succeeds with the
expected context and the theorem yields a non-empty `activeSentence`. -/
theorem C5_extract_contract_witness :
    extract sW = some ⟨strL "hello world sentence", [strL "hello world sentence"],
      [], strL "formal", strL "hello world sentence"⟩ ∧
    (⟨strL "hello world sentence", [strL "hello world sentence"],
      [], strL "formal", strL "hello world sentence"⟩ : WritingContext).activeSentence ≠ [] :=
  ⟨by decide, (C5_extract_contract sW).2 _ (by decide)⟩

end ContextManager

end Autowriter
